import Mathlib

/-!
# dynamic-graph-python: the value codec, the command dispatcher, the interpreter

A shallow embedding of `src/convert-dg-to-py.cc`, `src/entity-py.cc`,
`src/dynamic_graph/dynamic-graph-py.cc` and `src/interpreter.cc`, and the
properties of the bridge that follow from the code.

Conventions of the embedding.

* A script value is a `PyObject`; the CPython predicates and accessors the
  code calls (`PyInt_Check`, `PySequence_GetItem`, ...) are functions on it and
  follow the CPython reference manual.  A script integer stores a C `long`
  (64 bits).
* C integers are `Nat`/`Int` with the explicit wrap of every narrowing cast
  (`wrapInt`, `wrapUnsigned`, `wrapLong`).  Lengths of sequences and matrix
  dimensions stay natural numbers: the casts the source applies to a length
  (`(unsigned)size`, `(int)m.cols()`) are the identity below `2^31` and are
  left out.
* A `double` / `float` is an IEEE-754 datum: NaN, or a sign with the magnitude
  bit pattern (biased exponent and fraction read as one number).  Conversions
  round to nearest, ties to even.  NaN is one datum (payloads are not kept), so
  equality of two data is equality of what they denote.
* A `std::string` is a `String`; a C string read from it (`c_str()`, a
  `char*`) ends before the first NUL (`cString`).
* A C++ call ends in an `Outcome`: a value, a thrown exception (or, for the
  functions exported to the script side, `NULL` with the error indicator set),
  or `undefined` when the code leaves defined behaviour (null dereference,
  write outside a fixed storage, copy of an uninitialised coefficient).
* The entity factory and the embedded Python runtime are collaborators: the
  code is embedded with the factory (`Factory`) and the runtime (`Runtime`,
  what `PyRun_String` / `PyRun_File` do to the namespace and to the two
  catchers of `pythonPrefix`) as parameters, and the general statements hold
  for every one of them.  A `Session` records the state of the thread-state
  and every `PyEval_RestoreThread` / `PyEval_SaveThread` made.
-/

namespace DgPy

/-! ## C numbers -/

/-- The cast `(unsigned int) x`: reduction modulo `2^32`. -/
def wrapUnsigned (x : Int) : Nat := (x % 4294967296).toNat

/-- The cast `(int) x`: 32-bit two's complement truncation. -/
def wrapInt (x : Int) : Int := (x + 2147483648) % 4294967296 - 2147483648

/-- The value of a C `long` (64 bits, two's complement) holding `x`. -/
def wrapLong (x : Int) : Int :=
  (x + 9223372036854775808) % 18446744073709551616 - 9223372036854775808

/-- The cast to `unsigned long` (64 bits). -/
def wrapUnsignedLong (x : Int) : Nat := (x % 18446744073709551616).toNat

/-- Number of binary digits of `a`, computed with at most `fuel` halvings. -/
def bitLengthAux : Nat → Nat → Nat
  | 0, _ => 0
  | fuel + 1, a => if a = 0 then 0 else bitLengthAux fuel (a / 2) + 1

/-- Number of binary digits of `a` (`0` for `a = 0`). -/
def bitLength (a : Nat) : Nat := bitLengthAux a a

/-- Division of `m` by `2^k`, rounded to nearest, ties to even. -/
def roundShift (m k : Nat) : Nat :=
  let t := m / 2 ^ k
  let r := m % 2 ^ k
  if 2 ^ k < 2 * r ∨ (2 * r = 2 ^ k ∧ t % 2 = 1) then t + 1 else t

/-- Magnitude bit pattern of the natural number `a` in a binary format with
`p` significand bits and exponent bias `bias` (rounded to nearest even when
`a` needs more than `p` bits). -/
def natToMag (p bias a : Nat) : Nat :=
  if a = 0 then 0
  else
    let l := bitLength a
    if l ≤ p then (bias + l - 2) * 2 ^ (p - 1) + a * 2 ^ (p - l)
    else (bias + l - 2) * 2 ^ (p - 1) + roundShift a (l - p)

/-- A C `double` (IEEE-754 binary64): NaN, or sign and magnitude pattern
`mag = biasedExponent * 2^52 + fraction`, at most `Double.infMag`. -/
inductive Double where
  | nan
  | num (neg : Bool) (mag : Nat)
deriving DecidableEq, Repr

/-- A C `float` (IEEE-754 binary32): NaN, or sign and magnitude pattern
`mag = biasedExponent * 2^23 + fraction`, at most `Float32.infMag`. -/
inductive Float32 where
  | nan
  | num (neg : Bool) (mag : Nat)
deriving DecidableEq, Repr

/-- Magnitude pattern of the binary64 infinity. -/
def Double.infMag : Nat := 0x7FF0000000000000

/-- Magnitude pattern of the binary32 infinity. -/
def Float32.infMag : Nat := 0x7F800000

/-- The data that are values of the C type `double`. -/
def Double.WellFormed : Double → Prop
  | .nan => True
  | .num _ mag => mag ≤ Double.infMag

/-- The data that are values of the C type `float`. -/
def Float32.WellFormed : Float32 → Prop
  | .nan => True
  | .num _ mag => mag ≤ Float32.infMag

instance (d : Double) : Decidable d.WellFormed := by
  cases d <;> unfold Double.WellFormed <;> infer_instance

instance (f : Float32) : Decidable f.WellFormed := by
  cases f <;> unfold Float32.WellFormed <;> infer_instance

/-- The conversion `(double) n` of a C `long`. -/
def longToDouble (n : Int) : Double :=
  .num (decide (n < 0)) (natToMag 53 1023 n.natAbs)

/-- The conversion `(float) n` of a C `long`. -/
def longToFloat (n : Int) : Float32 :=
  .num (decide (n < 0)) (natToMag 24 127 n.natAbs)

/-- The promotion of a `float` to `double` (exact). -/
def floatToDouble : Float32 → Double
  | .nan => .nan
  | .num s mf =>
    if Float32.infMag ≤ mf then .num s Double.infMag
    else if 2 ^ 23 ≤ mf then .num s (mf * 2 ^ 29 + 896 * 2 ^ 52)
    else if mf = 0 then .num s 0
    else
      let l := bitLength mf
      .num s ((l + 872) * 2 ^ 52 + mf * 2 ^ (53 - l))

/-- The cast `(float) d` of a `double`. -/
def doubleToFloat : Double → Float32
  | .nan => .nan
  | .num s md =>
    if Double.infMag ≤ md then .num s Float32.infMag
    else
      let e := md / 2 ^ 52
      if 897 ≤ e then .num s (min (roundShift (md - 896 * 2 ^ 52) 29) Float32.infMag)
      else if e = 0 then .num s 0
      else .num s (roundShift (2 ^ 52 + md % 2 ^ 52) (926 - e))

/-- The sum `d + 0.0`: `d` itself, except that `-0.0 + 0.0` is `+0.0`. -/
def Double.addZero : Double → Double
  | .nan => .nan
  | .num s m => if m = 0 then .num false 0 else .num s m

/-! ## Outcomes of a call -/

/-- How a C++ call ends: with a value, with a failure (a thrown exception, or
`NULL` and the script error indicator), or outside defined behaviour. -/
inductive Outcome (ε α : Type) where
  | ok (a : α)
  | fail (e : ε)
  | undefined
deriving DecidableEq, Repr

/-- The loop `for (i = start; i < start + count; i++) body(i)`, threading the
state and leaving at the first iteration that does not complete. -/
def forLoop {ε σ : Type} (body : Nat → σ → Outcome ε σ) : Nat → Nat → σ → Outcome ε σ
  | 0, _, s => .ok s
  | count + 1, i, s =>
    match body i s with
    | .ok s1 => forLoop body count (i + 1) s1
    | .fail e => .fail e
    | .undefined => .undefined

/-! ## Script values and the CPython calls of the bridge -/

/-- A value of the scripting side. -/
inductive PyObject where
  | none
  | bool (b : Bool)
  | int (n : Int)
  | float (d : Double)
  | str (s : String)
  | tuple (items : List PyObject)
  | list (items : List PyObject)
  | capsule (name : String) (pointer : Nat)
  | object (attributes : List (String × PyObject))

/-- `PyBool_Check`. -/
def PyBool_Check : PyObject → Bool
  | .bool _ => true
  | _ => false

/-- `PyInt_Check`: an integer object or an instance of a subtype of the integer
type; the boolean type is such a subtype. -/
def PyInt_Check : PyObject → Bool
  | .int _ => true
  | .bool _ => true
  | _ => false

/-- `PyFloat_Check`. -/
def PyFloat_Check : PyObject → Bool
  | .float _ => true
  | _ => false

/-- `PyString_Check`. -/
def PyString_Check : PyObject → Bool
  | .str _ => true
  | _ => false

/-- `PyTuple_Check`. -/
def PyTuple_Check : PyObject → Bool
  | .tuple _ => true
  | _ => false

/-- `PyCapsule_CheckExact`. -/
def PyCapsule_CheckExact : PyObject → Bool
  | .capsule _ _ => true
  | _ => false

/-- `PyObject_IsTrue`. -/
def PyObject_IsTrue : PyObject → Bool
  | .none => false
  | .bool b => b
  | .int n => n != 0
  | .float d => d != .num false 0 && d != .num true 0
  | .str s => s != ""
  | .tuple items => !items.isEmpty
  | .list items => !items.isEmpty
  | .capsule _ _ => true
  | .object _ => true

/-- `PyInt_AS_LONG`, called after `PyInt_Check`: the stored C `long`. -/
def PyInt_AS_LONG : PyObject → Int
  | .int n => wrapLong n
  | .bool b => if b then 1 else 0
  | _ => 0

/-- `PyInt_AsUnsignedLongMask`, called after `PyInt_Check`. -/
def PyInt_AsUnsignedLongMask : PyObject → Nat
  | .int n => wrapUnsignedLong n
  | .bool b => if b then 1 else 0
  | _ => 0

/-- `PyFloat_AsDouble`, called after `PyFloat_Check`. -/
def PyFloat_AsDouble : PyObject → Double
  | .float d => d
  | _ => .num false 0

/-- `PyString_AsString`, called after `PyString_Check`: the character buffer. -/
def PyString_AsString : PyObject → String
  | .str s => s
  | _ => ""

/-- The text a C string function reads from a character buffer: the
characters before the first NUL. -/
def cString (s : String) : String :=
  String.mk (s.toList.takeWhile fun c => c != Char.ofNat 0)

/-- The items of an object that implements the sequence protocol (tuples,
lists, and strings, whose items are one-character strings). -/
def sequenceItems : PyObject → Option (List PyObject)
  | .tuple items => some items
  | .list items => some items
  | .str s => some (s.toList.map fun c => PyObject.str (String.singleton c))
  | _ => Option.none

/-- `PySequence_Check`. -/
def PySequence_Check (o : PyObject) : Bool := (sequenceItems o).isSome

/-- `PySequence_Size`: the length, `-1` for an object that is no sequence. -/
def PySequence_Size (o : PyObject) : Int :=
  match sequenceItems o with
  | some items => items.length
  | Option.none => -1

/-- `PySequence_GetItem`: `NULL` (here `none`) outside the sequence. -/
def PySequence_GetItem (o : PyObject) (i : Nat) : Option PyObject :=
  match sequenceItems o with
  | some items => items.get? i
  | Option.none => Option.none

/-- `PyCapsule_New(pointer, name, NULL)`: fails on a `NULL` pointer. -/
def PyCapsule_New (pointer : Nat) (name : String) : Option PyObject :=
  if pointer = 0 then Option.none else some (.capsule name pointer)

/-- `PyCapsule_GetPointer(capsule, name)`: the stored pointer when `name` is
the name stored in the capsule; otherwise `NULL` (here `none`) with the error
indicator set. -/
def PyCapsule_GetPointer (o : PyObject) (name : String) : Option Nat :=
  match o with
  | .capsule stored pointer => if stored = name then some pointer else Option.none
  | _ => Option.none

/-! ## Tagged values (`command::Value`) -/

/-- `command::Value::Type`. -/
inductive ValueType where
  | NONE | BOOL | UNSIGNED | INT | FLOAT | DOUBLE | STRING | VECTOR | MATRIX | MATRIX4D
deriving DecidableEq, Repr

/-- `dynamicgraph::Vector`: the coefficients in order. -/
abbrev Vector := List Double

/-- `dynamicgraph::Matrix`: the shape and the coefficients, row by row. -/
structure Matrix where
  rows : Nat
  cols : Nat
  coeff : List (List Double)
deriving DecidableEq, Repr

/-- `Eigen::Matrix4d`: four rows of four coefficients. -/
structure Matrix4d where
  coeff : List (List Double)
deriving DecidableEq, Repr

/-- The coefficient `m(iRow, iCol)` of a table of rows. -/
def coeffAt (coeff : List (List Double)) (iRow iCol : Nat) : Double :=
  (coeff.getD iRow []).getD iCol (.num false 0)

/-- `command::Value`. -/
inductive Value where
  | none
  | bool (b : Bool)
  | unsigned (u : Nat)
  | int (i : Int)
  | float (f : Float32)
  | double (d : Double)
  | string (s : String)
  | vector (v : Vector)
  | matrix (m : Matrix)
  | matrix4d (m : Matrix4d)
deriving DecidableEq, Repr

/-- `Value::type()`. -/
def Value.type : Value → ValueType
  | .none => .NONE
  | .bool _ => .BOOL
  | .unsigned _ => .UNSIGNED
  | .int _ => .INT
  | .float _ => .FLOAT
  | .double _ => .DOUBLE
  | .string _ => .STRING
  | .vector _ => .VECTOR
  | .matrix _ => .MATRIX
  | .matrix4d _ => .MATRIX4D

/-- A table of coefficients has `rows` rows of `cols` coefficients each. -/
def shaped (rows cols : Nat) (coeff : List (List Double)) : Prop :=
  coeff.length = rows ∧ ∀ r ∈ coeff, r.length = cols

/-- The values of the C++ types: an `unsigned` and an `int` have 32 bits, a
`float` and a `double` are IEEE data, the coefficient table of a matrix has
the shape of the matrix. -/
def Value.WellFormed : Value → Prop
  | .none => True
  | .bool _ => True
  | .unsigned u => u < 4294967296
  | .int i => -2147483648 ≤ i ∧ i < 2147483648
  | .float f => f.WellFormed
  | .double d => d.WellFormed
  | .string _ => True
  | .vector v => ∀ d ∈ v, d.WellFormed
  | .matrix m => shaped m.rows m.cols m.coeff ∧ ∀ r ∈ m.coeff, ∀ d ∈ r, d.WellFormed
  | .matrix4d m => shaped 4 4 m.coeff ∧ ∀ r ∈ m.coeff, ∀ d ∈ r, d.WellFormed

/-- `ExceptionPython::ErrorCodeEnum`, the codes the codec throws. -/
inductive ErrorCode where
  | VALUE_PARSING | VECTOR_PARSING | MATRIX_PARSING
deriving DecidableEq, Repr

/-- Modelled from the spec: class `ExceptionPython` is declared in
`exception-python.hh`, which is not among the sources.  An exception carries
the error code and the message it was built with, and `what()` returns that
message, so that a failed decode reports "what kind was expected". -/
structure ExceptionPython where
  code : ErrorCode
  message : String
deriving DecidableEq, Repr

/-- `exc.what()`. -/
def ExceptionPython.what (e : ExceptionPython) : String := e.message

/-! ## Matrix storage during a decode -/

/-- A matrix under construction: its shape and, for every position, the
coefficient written there, if any (`resize` leaves coefficients
uninitialised). -/
structure MatrixBuffer where
  rows : Nat
  cols : Nat
  coeff : Nat → Nat → Option Double

/-- The storage after `m.resize(rows, cols)` of a dynamic matrix. -/
def MatrixBuffer.resize (rows cols : Nat) : MatrixBuffer :=
  ⟨rows, cols, fun _ _ => Option.none⟩

/-- The storage of a default-constructed `Eigen::Matrix4d`. -/
def MatrixBuffer.fixed4 : MatrixBuffer := ⟨4, 4, fun _ _ => Option.none⟩

/-- The assignment `m(iRow, iCol) = d`; outside the storage it has no defined
behaviour. -/
def MatrixBuffer.set (m : MatrixBuffer) (iRow iCol : Nat) (d : Double) :
    Outcome ExceptionPython MatrixBuffer :=
  if iRow < m.rows ∧ iCol < m.cols then
    .ok { m with coeff := fun i j => if i = iRow ∧ j = iCol then some d else m.coeff i j }
  else .undefined

/-- All the entries of a list, when none is missing. -/
def allSome {α : Type} : List (Option α) → Option (List α)
  | [] => some []
  | Option.none :: _ => Option.none
  | some a :: rest => (allSome rest).map fun as => a :: as

/-- The coefficients read when the matrix is copied into a `Value`; `none`
when some coefficient was never written. -/
def MatrixBuffer.freeze (m : MatrixBuffer) : Option (List (List Double)) :=
  allSome ((List.range m.rows).map fun i => allSome ((List.range m.cols).map fun j => m.coeff i j))

/-! ## The value codec (`convert-dg-to-py.cc`) -/

/-- Sequencing of two steps: the second runs on the value of the first. -/
def Outcome.bind {ε α β : Type} (x : Outcome ε α) (f : α → Outcome ε β) : Outcome ε β :=
  match x with
  | .ok a => f a
  | .fail e => .fail e
  | .undefined => .undefined

/-- `fillMatrixRow(Matrix& m, unsigned iRow, PyObject* sequence)`. -/
def fillMatrixRow (m : MatrixBuffer) (iRow : Nat) (sequence : PyObject) :
    Outcome ExceptionPython MatrixBuffer :=
  if PySequence_Size sequence ≠ (m.cols : Int) then
    .fail ⟨.MATRIX_PARSING, "lines of matrix have different sizes."⟩
  else
    forLoop (fun iCol m =>
      match PySequence_GetItem sequence iCol with
      | Option.none => .undefined
      | some pyDouble =>
        if PyFloat_Check pyDouble then m.set iRow iCol (PyFloat_AsDouble pyDouble)
        else if PyInt_Check pyDouble then
          m.set iRow iCol (longToDouble (wrapInt (PyInt_AS_LONG pyDouble))).addZero
        else .fail ⟨.MATRIX_PARSING, "element of matrix should be a floating point number."⟩)
      m.cols 0 m

/-- `fillMatrixRow(Eigen::Matrix4d& m, unsigned iRow, PyObject* sequence)`:
the same body on the fixed storage, where `m.cols()` is 4. -/
def fillMatrixRow4d (m : MatrixBuffer) (iRow : Nat) (sequence : PyObject) :
    Outcome ExceptionPython MatrixBuffer :=
  if PySequence_Size sequence ≠ (m.cols : Int) then
    .fail ⟨.MATRIX_PARSING, "lines of matrix have different sizes."⟩
  else
    forLoop (fun iCol m =>
      match PySequence_GetItem sequence iCol with
      | Option.none => .undefined
      | some pyDouble =>
        if PyFloat_Check pyDouble then m.set iRow iCol (PyFloat_AsDouble pyDouble)
        else if PyInt_Check pyDouble then
          m.set iRow iCol (longToDouble (wrapInt (PyInt_AS_LONG pyDouble))).addZero
        else .fail ⟨.MATRIX_PARSING, "element of matrix should be a floating point number."⟩)
      m.cols 0 m

/-- `pythonToValue(PyObject* pyObject, const Value::Type& valueType)`.
In the `VECTOR` loop the state is the list of the coefficients `v(0)`, ...,
`v(i-1)` assigned so far.  `m4.resize` leaves a fixed-size matrix as it is. -/
def pythonToValue (pyObject : PyObject) (valueType : ValueType) :
    Outcome ExceptionPython Value :=
  match valueType with
  | .BOOL =>
    if !PyBool_Check pyObject then .fail ⟨.VALUE_PARSING, "bool"⟩
    else .ok (.bool (PyObject_IsTrue pyObject))
  | .UNSIGNED =>
    if !PyInt_Check pyObject then .fail ⟨.VALUE_PARSING, "unsigned int"⟩
    else .ok (.unsigned (wrapUnsigned (PyInt_AsUnsignedLongMask pyObject)))
  | .INT =>
    if !PyInt_Check pyObject then .fail ⟨.VALUE_PARSING, "int"⟩
    else .ok (.int (wrapInt (PyInt_AS_LONG pyObject)))
  | .FLOAT =>
    if PyFloat_Check pyObject then .ok (.float (doubleToFloat (PyFloat_AsDouble pyObject)))
    else if PyInt_Check pyObject then .ok (.float (longToFloat (PyInt_AS_LONG pyObject)))
    else .fail ⟨.VALUE_PARSING, "float"⟩
  | .DOUBLE =>
    if PyFloat_Check pyObject then .ok (.double (PyFloat_AsDouble pyObject))
    else if PyInt_Check pyObject then .ok (.double (longToDouble (PyInt_AS_LONG pyObject)))
    else .fail ⟨.VALUE_PARSING, "double"⟩
  | .STRING =>
    if !PyString_Check pyObject then .fail ⟨.VALUE_PARSING, "string"⟩
    else .ok (.string (cString (PyString_AsString pyObject)))
  | .VECTOR =>
    if !PySequence_Check pyObject then .fail ⟨.VALUE_PARSING, "vector"⟩
    else
      let size := (PySequence_Size pyObject).toNat
      (forLoop (fun i (v : Vector) =>
        match PySequence_GetItem pyObject i with
        | Option.none => .undefined
        | some pyDouble =>
          if PyFloat_Check pyDouble then .ok (v ++ [PyFloat_AsDouble pyDouble])
          else if PyInt_Check pyDouble then
            .ok (v ++ [(longToDouble (wrapInt (PyInt_AS_LONG pyDouble))).addZero])
          else .fail ⟨.VECTOR_PARSING, "element of vector should be a floating point number."⟩)
        size 0 []).bind fun v => .ok (.vector v)
  | .MATRIX =>
    if !PySequence_Check pyObject then .fail ⟨.VALUE_PARSING, "matrix"⟩
    else
      let nRows := (PySequence_Size pyObject).toNat
      if nRows = 0 then .ok (.matrix ⟨0, 0, []⟩)
      else
        match PySequence_GetItem pyObject 0 with
        | Option.none => .undefined
        | some row =>
          if !PySequence_Check row then .fail ⟨.MATRIX_PARSING, "matrix"⟩
          else
            let nCols := (PySequence_Size row).toNat
            let m := MatrixBuffer.resize nRows nCols
            (fillMatrixRow m 0 row).bind fun m =>
            (forLoop (fun iRow m =>
              match PySequence_GetItem pyObject iRow with
              | Option.none => .undefined
              | some row =>
                if !PySequence_Check row then .fail ⟨.MATRIX_PARSING, "matrix"⟩
                else fillMatrixRow m iRow row)
              (nRows - 1) 1 m).bind fun m =>
            match m.freeze with
            | some coeff => .ok (.matrix ⟨m.rows, m.cols, coeff⟩)
            | Option.none => .undefined
  | .MATRIX4D =>
    if !PySequence_Check pyObject then .fail ⟨.VALUE_PARSING, "matrix4d"⟩
    else
      let nRows := (PySequence_Size pyObject).toNat
      if nRows = 0 then
        match MatrixBuffer.fixed4.freeze with
        | some coeff => .ok (.matrix4d ⟨coeff⟩)
        | Option.none => .undefined
      else
        match PySequence_GetItem pyObject 0 with
        | Option.none => .undefined
        | some row =>
          if !PySequence_Check row then .fail ⟨.MATRIX_PARSING, "matrix4d"⟩
          else
            let m4 := MatrixBuffer.fixed4
            (fillMatrixRow4d m4 0 row).bind fun m4 =>
            (forLoop (fun iRow m4 =>
              match PySequence_GetItem pyObject iRow with
              | Option.none => .undefined
              | some row =>
                if !PySequence_Check row then .fail ⟨.MATRIX_PARSING, "matrix"⟩
                else fillMatrixRow4d m4 iRow row)
              (nRows - 1) 1 m4).bind fun m4 =>
            match m4.freeze with
            | some coeff => .ok (.matrix4d ⟨coeff⟩)
            | Option.none => .undefined
  | .NONE => .ok .none

/-- `vectorToPython`. -/
def vectorToPython (vector : Vector) : PyObject :=
  .tuple ((List.range vector.length).map fun index =>
    .float (vector.getD index (.num false 0)))

/-- `matrixToPython`. -/
def matrixToPython (matrix : Matrix) : PyObject :=
  .tuple ((List.range matrix.rows).map fun iRow =>
    .tuple ((List.range matrix.cols).map fun iCol => .float (coeffAt matrix.coeff iRow iCol)))

/-- `matrix4dToPython`; `matrix.rows()` and `matrix.cols()` are 4. -/
def matrix4dToPython (matrix : Matrix4d) : PyObject :=
  .tuple ((List.range 4).map fun iRow =>
    .tuple ((List.range 4).map fun iCol => .float (coeffAt matrix.coeff iRow iCol)))

/-- `valueToPython(const command::Value& value)`.  `Py_BuildValue("f", x)`
receives the `float` promoted to `double`; `Py_BuildValue("s", p)` reads the
C string at `p`; `Py_BuildValue("")` is the script `None`. -/
def valueToPython (value : Value) : PyObject :=
  match value with
  | .bool boolValue => if boolValue then .bool true else .bool false
  | .unsigned unsignedValue => .int unsignedValue
  | .int intValue => .int intValue
  | .float floatValue => .float (floatToDouble floatValue)
  | .double doubleValue => .float doubleValue
  | .string stringValue => .str (cString stringValue)
  | .vector vectorValue => vectorToPython vectorValue
  | .matrix matrixValue => matrixToPython matrixValue
  | .matrix4d matrix4dValue => matrix4dToPython matrix4dValue
  | .none => .none

/-! ## The native side: entities, commands, signals -/

/-- What the native engine may throw into the bridge. -/
inductive NativeException where
  | stdException (what : String)
  | cString (s : String)
  | other
deriving DecidableEq, Repr

/-- `command::Command`: the declared parameter kinds, the docstring, the
parameter values stored by `setParameterValues`, and the native body run by
`execute()`, which reads the stored values, may change the native state `σ`
and returns a value or throws. -/
structure Command (σ : Type) where
  valueTypes : List ValueType
  docstring : String
  parameterValues : List Value
  doExecute : List Value → σ → Except NativeException Value × σ

/-- `Entity`: its names, its command map (`getNewStyleCommandMap()`, in key
order) and its signal map (name to signal address, in key order). -/
structure Entity (σ : Type) where
  name : String
  className : String
  commandMap : List (String × Command σ)
  signalMap : List (String × Nat)

/-- `SignalBase<int>`: its name and the signal plugged into it, if any. -/
structure Signal where
  name : String
  source : Option Nat
deriving DecidableEq, Repr

/-- The native objects by address, and the rest of the native state. -/
structure World (σ : Type) where
  entities : List (Nat × Entity σ)
  signals : List (Nat × Signal)
  native : σ

/-- The entity a pointer refers to; none for `NULL` (address 0 or a failed
`PyCapsule_GetPointer`) and for an address that holds no entity. -/
def World.entityAt {σ : Type} (w : World σ) : Option Nat → Option (Entity σ)
  | Option.none => Option.none
  | some pointer => if pointer = 0 then Option.none else w.entities.lookup pointer

/-- The signal a pointer refers to. -/
def World.signalAt {σ : Type} (w : World σ) : Option Nat → Option Signal
  | Option.none => Option.none
  | some pointer => if pointer = 0 then Option.none else w.signals.lookup pointer

/-- `map.count(key)` of a `std::map`: 1 when the key is present, else 0. -/
def mapCount {β : Type} (map : List (String × β)) (key : String) : Nat :=
  if (map.lookup key).isSome then 1 else 0

/-- The world after `command->setParameterValues(values)` on the command
`commandName` of the entity at `pointer`: the values are stored in it. -/
def World.setParameterValues {σ : Type} (w : World σ) (pointer : Nat)
    (commandName : String) (values : List Value) : World σ :=
  { w with entities := w.entities.map fun pe =>
      if pe.1 = pointer then
        (pe.1, { pe.2 with commandMap := pe.2.commandMap.map fun nc =>
          if nc.1 = commandName then (nc.1, { nc.2 with parameterValues := values }) else nc })
      else pe }

/-- The world after `signalIn->plug(signalOut)`. -/
def World.plug {σ : Type} (w : World σ) (signalIn : Nat) (signalOut : Option Nat) : World σ :=
  { w with signals := w.signals.map fun ps =>
      if ps.1 = signalIn then (ps.1, { ps.2 with source := signalOut }) else ps }

/-! ## The script-side error indicator -/

/-- The exception classes the bridge raises. -/
inductive PyExcType where
  | TypeError | AttributeError | dgpyError | ValueError
deriving DecidableEq, Repr

/-- The error indicator a bridge function leaves when it returns `NULL`:
set by `PyArg_ParseTuple`, or by `PyErr_SetString(type, message)`, or not set
at all. -/
inductive PyErr where
  | argumentParsing
  | setString (type : PyExcType) (message : String)
  | notSet
deriving DecidableEq, Repr

/-- Modelled from the spec: the macro `CATCH_ALL_EXCEPTIONS` is defined in
`exception.hh`, which is not among the sources.  Native faults "are caught at
the bridge boundary and converted into a textual diagnostic", "carrying the
native error's message"; the clauses are those written out in
`setLoggerVerbosityLevel`. -/
def catchAllExceptions : NativeException → PyErr
  | .stdException what => .setString .dgpyError what
  | .cString s => .setString .dgpyError s
  | .other => .setString .dgpyError "Unknown exception"

/-- The argument of format `s` of `PyArg_ParseTuple`: a string without an
embedded NUL. -/
def parseString : PyObject → Option String
  | .str s => if s.toList.contains (Char.ofNat 0) then Option.none else some s
  | _ => Option.none

/-- `PyTuple_Size`, called after `PyTuple_Check`. -/
def PyTuple_Size : PyObject → Nat
  | .tuple items => items.length
  | _ => 0

/-- `PyTuple_GetItem`. -/
def PyTuple_GetItem : PyObject → Nat → Option PyObject
  | .tuple items, i => items.get? i
  | _, _ => Option.none

/-! ## The command dispatcher (`entity-py.cc`) and `plug` -/

/-- The calls a run of the dispatcher makes, in order: `pythonToValue` on the
argument at a position, `command->setParameterValues`, `command->execute`. -/
inductive Event where
  | decode (iParam : Nat)
  | setParameterValues (values : List Value)
  | execute
deriving DecidableEq, Repr

/-- The end of a bridge call: what the script side receives, the native world
afterwards, and the calls made on the way. -/
structure Run (σ : Type) where
  result : Outcome PyErr PyObject
  world : World σ
  trace : List Event

/-- The body of the loop over the arguments in `executeCommand`: decode the
argument at `iParam` against `typeVector[iParam]` and append it to
`valueVector`; on an exception, set the error and leave. -/
def decodeArgument (argTuple : PyObject) (typeVector : List ValueType) (iParam : Nat)
    (state : List Value × List Event) :
    Outcome (PyErr × List Event) (List Value × List Event) :=
  match PyTuple_GetItem argTuple iParam, typeVector.get? iParam with
  | some pyValue, some valueType =>
    match pythonToValue pyValue valueType with
    | .ok value => .ok (state.1 ++ [value], state.2 ++ [.decode iParam])
    | .fail exc =>
      .fail (.setString .dgpyError
        ("while parsing argument " ++ toString (iParam + 1) ++ ": expecting " ++ exc.what ++ "."),
        state.2 ++ [.decode iParam])
    | .undefined => .undefined
  | _, _ => .undefined

/-- `executeCommand(self, args)`.  `PyArg_ParseTuple(args, "OsO", ...)` accepts
three arguments, the second a string; `Py_ssize_t size` and the loop counter
are natural numbers. -/
def executeCommand {σ : Type} (w : World σ) (args : PyObject) : Run σ :=
  match args with
  | .tuple [object, name, argTuple] =>
    match parseString name with
    | Option.none => ⟨.fail .argumentParsing, w, []⟩
    | some commandName =>
      if !PyCapsule_CheckExact object then
        ⟨.fail (.setString .TypeError "first argument is not an object"), w, []⟩
      else
        let pointer := PyCapsule_GetPointer object "dynamic_graph.Entity"
        if !PyTuple_Check argTuple then
          ⟨.fail (.setString .TypeError "third argument is not a tuple"), w, []⟩
        else
          let size := PyTuple_Size argTuple
          match w.entityAt pointer, pointer with
          | some entity, some address =>
            let commandMap := entity.commandMap
            if mapCount commandMap commandName ≠ 1 then
              ⟨.fail (.setString .AttributeError
                ("'" ++ entity.name ++ "' entity has no command '" ++ commandName ++ "'.")), w, []⟩
            else
              match commandMap.lookup commandName with
              | Option.none => ⟨.undefined, w, []⟩
              | some command =>
                let typeVector := command.valueTypes
                if size ≠ typeVector.length then
                  ⟨.fail (.setString .dgpyError
                    ("command takes " ++ toString typeVector.length ++ " parameters, "
                      ++ toString size ++ " given.")), w, []⟩
                else
                  match forLoop (decodeArgument argTuple typeVector) size 0 ([], []) with
                  | .fail (err, trace) => ⟨.fail err, w, trace⟩
                  | .undefined => ⟨.undefined, w, []⟩
                  | .ok (valueVector, trace) =>
                    let w1 := w.setParameterValues address commandName valueVector
                    match command.doExecute valueVector w1.native with
                    | (.ok result, native) =>
                      ⟨.ok (valueToPython result), { w1 with native := native },
                        trace ++ [.setParameterValues valueVector, .execute]⟩
                    | (.error exc, native) =>
                      ⟨.fail (catchAllExceptions exc), { w1 with native := native },
                        trace ++ [.setParameterValues valueVector, .execute]⟩
          | _, _ => ⟨.undefined, w, []⟩
  | _ => ⟨.fail .argumentParsing, w, []⟩

/-- `getCommandDocstring(self, args)`. -/
def getCommandDocstring {σ : Type} (w : World σ) (args : PyObject) : Run σ :=
  match args with
  | .tuple [object, name] =>
    match parseString name with
    | Option.none => ⟨.fail .argumentParsing, w, []⟩
    | some commandName =>
      if !PyCapsule_CheckExact object then
        ⟨.fail (.setString .dgpyError "first argument is not an object"), w, []⟩
      else
        let pointer := PyCapsule_GetPointer object "dynamic_graph.Entity"
        match w.entityAt pointer with
        | Option.none => ⟨.undefined, w, []⟩
        | some entity =>
          match entity.commandMap.lookup commandName with
          | Option.none =>
            ⟨.fail (.setString .AttributeError
              ("'" ++ entity.name ++ "' entity has no command '" ++ commandName ++ "'.")), w, []⟩
          | some command => ⟨.ok (.str (cString command.docstring)), w, []⟩
  | _ => ⟨.fail .argumentParsing, w, []⟩

/-- `getName(self, args)`. -/
def getName {σ : Type} (w : World σ) (args : PyObject) : Run σ :=
  match args with
  | .tuple [object] =>
    if !PyCapsule_CheckExact object then
      ⟨.fail (.setString .TypeError "function takes a PyCapsule as argument"), w, []⟩
    else
      let pointer := PyCapsule_GetPointer object "dynamic_graph.Entity"
      match w.entityAt pointer with
      | Option.none => ⟨.undefined, w, []⟩
      | some entity => ⟨.ok (.str (cString entity.name)), w, []⟩
  | _ => ⟨.fail .argumentParsing, w, []⟩

/-- `plug(self, args)`: `signalIn->plug(signalOut)`. -/
def plug {σ : Type} (w : World σ) (args : PyObject) : Run σ :=
  match args with
  | .tuple [objOut, objIn] =>
    if !PyCapsule_CheckExact objOut then
      ⟨.fail (.setString .TypeError "first argument should be a pointer to signalBase<int>."),
        w, []⟩
    else if !PyCapsule_CheckExact objIn then
      ⟨.fail (.setString .TypeError "second argument should be a pointer to signalBase<int>."),
        w, []⟩
    else
      let pObjIn := PyCapsule_GetPointer objIn "dynamic_graph.Signal"
      let pObjOut := PyCapsule_GetPointer objOut "dynamic_graph.Signal"
      match w.signalAt pObjIn, pObjIn with
      | some _, some signalIn => ⟨.ok .none, w.plug signalIn pObjOut, []⟩
      | _, _ => ⟨.undefined, w, []⟩
  | _ => ⟨.fail .argumentParsing, w, []⟩

/-! ## Entities: creation, listings, logger (`entity-py.cc`) -/

/-- `PoolStorage::existEntity(name, ptr)`: the address under which the pool
holds an entity named `name`, with that entity. -/
def World.existEntity {σ : Type} (w : World σ) (name : String) : Option (Nat × Entity σ) :=
  w.entities.find? fun pe => pe.2.name == name

/-- `FactoryStorage::newEntity(className, instanceName)`, a collaborator: it
returns the address of the new entity or throws, and changes the world. -/
abbrev Factory (σ : Type) := String → String → World σ → Except NativeException Nat × World σ

/-- The end of a call of `create`: the result, the world afterwards and the
calls of the factory, each with its class name and instance name. -/
structure CreateRun (σ : Type) where
  result : Outcome PyErr PyObject
  world : World σ
  factoryCalls : List (String × String)

/-- The result of `return PyCapsule_New(pointer, name, NULL)`. -/
def returnCapsule (pointer : Nat) (name : String) : Outcome PyErr PyObject :=
  match PyCapsule_New pointer name with
  | some handle => .ok handle
  | Option.none => .fail (.setString .ValueError "PyCapsule_New called with null pointer")

/-- `create(self, args)`. -/
def create {σ : Type} (factory : Factory σ) (w : World σ) (args : PyObject) : CreateRun σ :=
  match args with
  | .tuple [classObject, instanceObject] =>
    match parseString classObject, parseString instanceObject with
    | some className, some instanceName =>
      match w.existEntity instanceName with
      | some (obj, entity) =>
        if entity.className ≠ className then
          ⟨.fail (.setString .dgpyError
            ("Found an object named " ++ instanceName ++ ",\nbut this object is of type "
              ++ entity.className ++ " and not " ++ className)), w, []⟩
        else ⟨returnCapsule obj "dynamic_graph.Entity", w, []⟩
      | Option.none =>
        match factory className instanceName w with
        | (.ok obj, w1) =>
          ⟨returnCapsule obj "dynamic_graph.Entity", w1, [(className, instanceName)]⟩
        | (.error exc, w1) => ⟨.fail (catchAllExceptions exc), w1, [(className, instanceName)]⟩
    | _, _ => ⟨.fail .argumentParsing, w, []⟩
  | _ => ⟨.fail .argumentParsing, w, []⟩

/-- The tuple filled slot by slot with `PyTuple_SET_ITEM`; a slot whose item
is `NULL` leaves a tuple that is no script value. -/
def filledTuple (slots : List (Option PyObject)) : Outcome PyErr PyObject :=
  match allSome slots with
  | some items => .ok (.tuple items)
  | Option.none => .undefined

/-- `listSignals(self, args)`. -/
def listSignals {σ : Type} (w : World σ) (args : PyObject) : Run σ :=
  match args with
  | .tuple [object] =>
    if !PyCapsule_CheckExact object then ⟨.fail .notSet, w, []⟩
    else
      let pointer := PyCapsule_GetPointer object "dynamic_graph.Entity"
      match w.entityAt pointer with
      | Option.none => ⟨.undefined, w, []⟩
      | some entity =>
        let signalMap := entity.signalMap
        ⟨filledTuple (signalMap.map fun it => PyCapsule_New it.2 "dynamic_graph.Signal"), w, []⟩
  | _ => ⟨.fail .argumentParsing, w, []⟩

/-- `listCommands(self, args)`. -/
def listCommands {σ : Type} (w : World σ) (args : PyObject) : Run σ :=
  match args with
  | .tuple [object] =>
    if !PyCapsule_CheckExact object then
      ⟨.fail (.setString .TypeError "function takes a PyCapsule as argument"), w, []⟩
    else
      let pointer := PyCapsule_GetPointer object "dynamic_graph.Entity"
      match w.entityAt pointer with
      | Option.none => ⟨.undefined, w, []⟩
      | some entity =>
        let map := entity.commandMap
        ⟨filledTuple (map.map fun it => some (.str (cString it.1))), w, []⟩
  | _ => ⟨.fail .argumentParsing, w, []⟩

/-- `LoggerVerbosity`. -/
inductive LoggerVerbosity where
  | VERBOSITY_ALL
  | VERBOSITY_INFO_WARNING_ERROR
  | VERBOSITY_WARNING_ERROR
  | VERBOSITY_ERROR
  | VERBOSITY_NONE
deriving DecidableEq, Repr

/-- `PyObject_GetAttrString`: the attribute of an object, `NULL` (here `none`)
when there is none. -/
def PyObject_GetAttrString : PyObject → String → Option PyObject
  | .object attributes, name => attributes.lookup name
  | _, _ => Option.none

/-- `PyLong_AsLong`: the C `long` of an integer object; `-1` (with the error
indicator set) for `NULL`, for an integer outside the range of a `long` and
for an object that is no integer. -/
def PyLong_AsLong : Option PyObject → Int
  | some (.int n) =>
    if -9223372036854775808 ≤ n ∧ n < 9223372036854775808 then n else -1
  | some (.bool b) => if b then 1 else 0
  | _ => -1

/-- The end of a call of `setLoggerVerbosityLevel`: the result, the verbosity
of the logger of each entity (by address) afterwards, and the calls of
`entity->setLoggerVerbosityLevel`, each with the address and the level. -/
structure LoggerRun where
  result : Outcome PyErr PyObject
  loggers : List (Nat × LoggerVerbosity)
  setterCalls : List (Nat × LoggerVerbosity)

/-- The table of loggers after `entity->setLoggerVerbosityLevel(level)` on the
entity at `address`. -/
def setLogger (loggers : List (Nat × LoggerVerbosity)) (address : Nat)
    (level : LoggerVerbosity) : List (Nat × LoggerVerbosity) :=
  (address, level) :: loggers.filter fun al => al.1 != address

/-- `setLoggerVerbosityLevel(self, args)`; `loggers` holds the verbosity of
the logger of each entity. -/
def setLoggerVerbosityLevel {σ : Type} (w : World σ) (loggers : List (Nat × LoggerVerbosity))
    (args : PyObject) : LoggerRun :=
  match args with
  | .tuple [object, objectVerbosityLevel] =>
    if !PyCapsule_CheckExact object then
      ⟨.fail (.setString .TypeError "First argument should be an object"), loggers, []⟩
    else
      let pointer := PyCapsule_GetPointer object "dynamic_graph.Entity"
      let valueOfVerbosityLevel := PyObject_GetAttrString objectVerbosityLevel "value"
      let verbosityLevel := PyLong_AsLong valueOfVerbosityLevel
      match w.entityAt pointer, pointer with
      | some _, some address =>
        let level : LoggerVerbosity :=
          if verbosityLevel = 0 then .VERBOSITY_ALL
          else if verbosityLevel = 1 then .VERBOSITY_INFO_WARNING_ERROR
          else if verbosityLevel = 2 then .VERBOSITY_WARNING_ERROR
          else if verbosityLevel = 3 then .VERBOSITY_ERROR
          else if verbosityLevel = 4 then .VERBOSITY_NONE
          else .VERBOSITY_NONE
        ⟨.ok .none, setLogger loggers address level, [(address, level)]⟩
      | _, _ => ⟨.undefined, loggers, []⟩
  | _ => ⟨.fail .argumentParsing, loggers, []⟩

/-! ## The embedded interpreter (`interpreter.cc`) -/

/-- The start symbols the bridge passes to the runtime. -/
inductive StartSymbol where
  | Py_eval_input
  | Py_file_input
deriving DecidableEq, Repr

/-- What a name of the main module is bound to: a module, or another
object. -/
inductive Bound where
  | module (name : String)
  | value (o : PyObject)

/-- Whether the type of the bound object is the type of the main module
(`poAttr->ob_type == mainmod_->ob_type`). -/
def Bound.isModule : Bound → Bool
  | .module _ => true
  | .value _ => false

/-- A namespace: the bindings of the dictionary `globals_` of the main
module. -/
abbrev Namespace := List (String × Bound)

/-- The state of the runtime that a snippet can read and change: the global
namespace and the text held by `stdout_catcher.data` and
`stderr_catcher.data`. -/
structure RuntimeState where
  globals : Namespace
  stdoutData : String
  stderrData : String

/-- What `PyRun_String` / `PyRun_File` returns: an object, given by the text
that `PyObject_Str` yields for it, or `NULL` with an exception set, given by
the text that `PyErr_Print` writes for it. -/
inductive RunResult where
  | value (str : String)
  | raised (traceback : String)
deriving DecidableEq, Repr

/-- The embedded runtime, a collaborator: running a source text from a start
symbol in a state gives a result and the state afterwards. -/
abbrev Runtime := StartSymbol → String → RuntimeState → RunResult × RuntimeState

/-- Whether the native thread holds the thread-state of the runtime. -/
inductive ThreadState where
  | Suspended
  | Active
deriving DecidableEq, Repr

/-- An acquisition or a release of the thread-state. -/
inductive ThreadEvent where
  | acquire
  | release
deriving DecidableEq, Repr

/-- The state of an `Interpreter`: the thread-state, the state of the runtime,
and the acquisitions and releases made so far. -/
structure Session where
  threadState : ThreadState
  state : RuntimeState
  threadLog : List ThreadEvent

/-- `PyEval_RestoreThread(_pyState)`. -/
def Session.restoreThread (s : Session) : Session :=
  { s with threadState := .Active, threadLog := s.threadLog ++ [.acquire] }

/-- `_pyState = PyEval_SaveThread()`. -/
def Session.saveThread (s : Session) : Session :=
  { s with threadState := .Suspended, threadLog := s.threadLog ++ [.release] }

/-- `obj_to_str`: the text of `PyObject_Str`, read as a C string. -/
def obj_to_str (str : String) : String := cString str

/-- `catcher.fetch()` of `pythonPrefix` on the standard output catcher,
through `obj_to_str`: the text held, and the state with the text cleared. -/
def fetchStdout (st : RuntimeState) : String × RuntimeState :=
  (obj_to_str st.stdoutData, { st with stdoutData := "" })

/-- `catcher.fetch()` on the standard error catcher, through `obj_to_str`. -/
def fetchStderr (st : RuntimeState) : String × RuntimeState :=
  (obj_to_str st.stderrData, { st with stderrData := "" })

/-- `HandleErr(ctx)` after a run that returned `result`: when an exception is
set, `PyErr_Print` writes its text to the standard error catcher, and the
catcher is fetched; otherwise the error text is empty. -/
def HandleErr (result : RunResult) (st : RuntimeState) : String × RuntimeState :=
  match result with
  | .raised traceback => fetchStderr { st with stderrData := st.stderrData ++ traceback }
  | .value _ => ("", st)

/-- The three output strings of `python` and the session afterwards. -/
structure PythonRun where
  res : String
  out : String
  err : String
  session : Session

/-- The characters of `command` from `command.find_first_not_of(" \t")` on;
empty when the position is `npos`. -/
def fromFirstNonWhite (command : String) : List Char :=
  command.toList.dropWhile fun c => c == Char.ofNat 32 || c == Char.ofNat 9

/-- `Interpreter::python(command, res, out, err)`. -/
def Interpreter.python (runtime : Runtime) (command : String) (s : Session) : PythonRun :=
  match fromFirstNonWhite command with
  | [] => ⟨"", "", "", s⟩
  | c :: _ =>
    if c == Char.ofNat 35 then ⟨"", "", "", s⟩
    else
      let s1 := s.restoreThread
      let run := runtime .Py_eval_input (cString command) s1.state
      let handled := match run.1 with
        | .raised _ => HandleErr run.1 run.2
        | .value _ => ("", run.2)
      let fetched := fetchStdout handled.2
      let res := match run.1 with
        | .value str => obj_to_str str
        | .raised _ => ""
      ⟨res, fetched.1, handled.1, ({ s1 with state := fetched.2 }).saveThread⟩

/-- `Interpreter::runPythonFile(filename, err)`: the error string and the
session afterwards.  `fopen` gives the content of a file that can be opened
for reading. -/
def Interpreter.runPythonFile (fopen : String → Option String) (runtime : Runtime)
    (filename : String) (s : Session) : String × Session :=
  match fopen (cString filename) with
  | Option.none => (filename ++ " cannot be open", s)
  | some content =>
    let s1 := s.restoreThread
    let run := runtime .Py_file_input content s1.state
    let handled := match run.1 with
      | .raised _ => HandleErr run.1 run.2
      | .value _ => ("", run.2)
    (handled.1, ({ s1 with state := handled.2 }).saveThread)

/-- `Interpreter::runMain()`; `pyMain` is what `Py_Main` does to the state of
the runtime. -/
def Interpreter.runMain (pyMain : RuntimeState → RuntimeState) (s : Session) : Session :=
  let s1 := s.restoreThread
  ({ s1 with state := pyMain s1.state }).saveThread

/-- The global namespace after the constructor has run `pythonPrefix` and
`import linecache`. -/
def initialGlobals : Namespace :=
  [("__builtins__", .module "builtins"), ("__doc__", .value .none),
   ("__name__", .value (.str "__main__")), ("__package__", .value .none),
   ("print_function", .value (.object [])), ("traceback", .module "traceback"),
   ("StdoutCatcher", .value (.object [])), ("stdout_catcher", .value (.object [])),
   ("stderr_catcher", .value (.object [])), ("sys", .module "sys"),
   ("linecache", .module "linecache")]

/-- `Interpreter::Interpreter()`: `Py_Initialize` leaves the thread-state with
the calling thread, and the constructor ends on `PyEval_SaveThread`. -/
def Interpreter.new : Session :=
  ⟨.Suspended, ⟨initialGlobals, "", ""⟩, [.acquire, .release]⟩

/-- `s.compare(pos, len, t) != 0`: whether the `len` characters of `s` from
`pos` on differ from `t`; `none` when `pos > s.size()`, where `compare` throws
`std::out_of_range`. -/
def compareNe (s : String) (pos len : Nat) (t : String) : Option Bool :=
  if s.length < pos then Option.none
  else some (decide (((s.toList.drop pos).take len) ≠ t.toList))

/-- `oAttrName.size() - 2` in `size_t`: it wraps for a size below 2. -/
def sizeMinusTwo (size : Nat) : Nat :=
  if size < 2 then size + 18446744073709551616 - 2 else size - 2

/-- The test of the destructor on a name,
`compare(0, 2, "__") != 0 || compare(size() - 2, 2, "__") != 0`; the second
comparison is evaluated only when the first one is false. -/
def isNotPrivate (oAttrName : String) : Option Bool :=
  match compareNe oAttrName 0 2 "__" with
  | Option.none => Option.none
  | some true => some true
  | some false => compareNe oAttrName (sizeMinusTwo oAttrName.length) 2 "__"

/-- The body of the loop of the destructor for one name of `dir(mainmod_)`:
`none` when the code leaves defined behaviour. -/
def detachStep (globals : Namespace) (poAttrName : String) : Option Namespace :=
  match isNotPrivate (obj_to_str poAttrName) with
  | Option.none => Option.none
  | some false => some globals
  | some true =>
    match globals.lookup poAttrName with
    | Option.none => Option.none
    | some poAttr =>
      if !poAttr.isModule then some (globals.filter fun b => b.1 != poAttrName)
      else some globals

/-- The loop of the destructor over the names. -/
def detachAll : List String → Namespace → Option Namespace
  | [], globals => some globals
  | poAttrName :: rest, globals =>
    match detachStep globals poAttrName with
    | Option.none => Option.none
    | some globals1 => detachAll rest globals1

/-- `Interpreter::~Interpreter()`: the session when the destructor returns. -/
def Interpreter.destroy (s : Session) : Option Session :=
  let s1 := s.restoreThread
  match detachAll (s1.state.globals.map Prod.fst) s1.state.globals with
  | Option.none => Option.none
  | some globals => some { s1 with state := { s1.state with globals := globals } }

/-! ## Names used in the statements -/

/-- The decode events of the positions `start`, ..., `start + count - 1`. -/
def decodeEvents (start count : Nat) : List Event :=
  (List.range' start count).map Event.decode

/-- The name under which the codec reports each kind. -/
def kindName : ValueType → String
  | .NONE => ""
  | .BOOL => "bool"
  | .UNSIGNED => "unsigned int"
  | .INT => "int"
  | .FLOAT => "float"
  | .DOUBLE => "double"
  | .STRING => "string"
  | .VECTOR => "vector"
  | .MATRIX => "matrix"
  | .MATRIX4D => "matrix4d"

/-- A command with two parameters; its body counts its runs in the native
state. -/
def sampleCommand : Command Nat :=
  ⟨[.INT, .DOUBLE], "sets the gain", [], fun _ n => (.ok (.bool true), n + 1)⟩

/-- An entity with the command `setGain` and two signals. -/
def sampleEntity : Entity Nat :=
  ⟨"filter", "Filter", [("setGain", sampleCommand)], [("sin", 20), ("sout", 21)]⟩

/-- A world with one entity at address 10 and its signals at 20 and 21. -/
def sampleWorld : World Nat :=
  ⟨[(10, sampleEntity)], [(20, ⟨"sin", Option.none⟩), (21, ⟨"sout", Option.none⟩)], 0⟩

/-- The coefficient the loops of the codec store for a sequence item: the
`double` of a float object, `(int)PyInt_AS_LONG(item) + 0.0` for an object that
passes `PyInt_Check`; none for any other item. -/
def coefficientOf (item : PyObject) : Option Double :=
  if PyFloat_Check item then some (PyFloat_AsDouble item)
  else if PyInt_Check item then some (longToDouble (wrapInt (PyInt_AS_LONG item))).addZero
  else Option.none

/-- The coefficients of a row of a matrix with `cols` columns: defined when
the row is a sequence of `cols` items that all have a coefficient. -/
def rowCoefficients (cols : Nat) (row : PyObject) : Option (List Double) :=
  match sequenceItems row with
  | some items => if items.length = cols then allSome (items.map coefficientOf) else Option.none
  | Option.none => Option.none

/-- The storage of shape `rows` x `cols` in which exactly the coefficients of
`table` have been written. -/
def bufferOf (rows cols : Nat) (table : List (List Double)) : MatrixBuffer :=
  ⟨rows, cols, fun i j => (table.get? i).bind fun r => r.get? j⟩

/-- The scalar kinds. -/
def ValueType.isScalar : ValueType → Bool
  | .BOOL | .UNSIGNED | .INT | .FLOAT | .DOUBLE | .STRING => true
  | _ => false

/-- The script values that the specification admits for a scalar kind: "a
boolean (kind Bool), an integer (kinds Unsigned and Int), an integer or a
floating-point number (kinds Float and Double), or a text string (kind
String)". -/
def statedScalarShape : ValueType → PyObject → Prop
  | .BOOL, x => ∃ b, x = .bool b
  | .UNSIGNED, x => ∃ n, x = .int n
  | .INT, x => ∃ n, x = .int n
  | .FLOAT, x => (∃ n, x = .int n) ∨ ∃ d, x = .float d
  | .DOUBLE, x => (∃ n, x = .int n) ∨ ∃ d, x = .float d
  | .STRING, x => ∃ s, x = .str s
  | _, _ => False

/-- The script values that the code decodes for a scalar kind: as stated,
and a boolean also for the four numeric kinds. -/
def acceptedScalarShape : ValueType → PyObject → Prop
  | .BOOL, x => ∃ b, x = .bool b
  | .UNSIGNED, x => (∃ n, x = .int n) ∨ ∃ b, x = .bool b
  | .INT, x => (∃ n, x = .int n) ∨ ∃ b, x = .bool b
  | .FLOAT, x => (∃ n, x = .int n) ∨ (∃ b, x = .bool b) ∨ ∃ d, x = .float d
  | .DOUBLE, x => (∃ n, x = .int n) ∨ (∃ b, x = .bool b) ∨ ∃ d, x = .float d
  | .STRING, x => ∃ s, x = .str s
  | _, _ => False

/-- An element that is "an integer or a floating-point number". -/
def statedNumber (item : PyObject) : Prop :=
  (∃ n, item = .int n) ∨ ∃ d, item = .float d

/-- The elements the vector and matrix decoders take: a boolean, an integer
or a floating-point number. -/
def acceptedElement : PyObject → Prop
  | .bool _ => True
  | .int _ => True
  | .float _ => True
  | _ => False

/-- A row the matrix decoder takes for a matrix of `cols` columns: a sequence
of `cols` accepted elements. -/
def acceptedRow (cols : Nat) (row : PyObject) : Prop :=
  ∃ items, sequenceItems row = some items ∧ items.length = cols
    ∧ ∀ item ∈ items, acceptedElement item

/-- A script value that is a sequence of `rows` sequences of `cols` floats,
the float at `(i, j)` being the coefficient `(i, j)` of `coeff`. -/
def isFloatTable (rows cols : Nat) (coeff : List (List Double)) (p : PyObject) : Prop :=
  ∃ rowObjects, p = .tuple rowObjects ∧ rowObjects.length = rows
    ∧ ∀ i, i < rows → ∃ items, rowObjects.get? i = some (.tuple items) ∧ items.length = cols
      ∧ ∀ j, j < cols → items.get? j = some (.float (coeffAt coeff i j))

/-- The script value the specification gives for each tagged value: a boolean
for `Bool`, an integer for `Unsigned` and `Int`, a float for `Float` and
`Double`, a text for `String`, a flat sequence of floats in order for a
`Vector`, a sequence of rows of floats for a `Matrix` and a `Matrix4`, and the
"no value" token for any other kind. -/
def encodedAs : Value → PyObject → Prop
  | .none, p => p = .none
  | .bool b, p => p = .bool b
  | .unsigned u, p => p = .int u
  | .int i, p => p = .int i
  | .float f, p => p = .float (floatToDouble f)
  | .double d, p => p = .float d
  | .string s, p => p = .str (cString s)
  | .vector v, p => p = .tuple (v.map PyObject.float)
  | .matrix m, p => isFloatTable m.rows m.cols m.coeff p
  | .matrix4d m, p => isFloatTable 4 4 m.coeff p

/-- The value of a matrix element as a `double`: the float itself, 0.0 or 1.0
for a boolean, the double of an integer that fits a 32-bit `int`.  It says
nothing of an integer outside that range. -/
def elementValue : PyObject → Option Double
  | .float d => some d
  | .bool b => some (longToDouble (if b then 1 else 0))
  | .int n => if -2147483648 ≤ n ∧ n < 2147483648 then some (longToDouble n) else Option.none
  | _ => Option.none

/-- A matrix of two rows and three columns. -/
def sampleMatrix : Matrix :=
  ⟨2, 3, [[.num false 0x3FF0000000000000, .num true 0x4000000000000000, .num false 0],
          [.nan, .num false 0x7FF0000000000000, .num true 1]]⟩

/-- The verbosity the specification gives for an input value: All for 0,
InfoWarningError for 1, WarningError for 2, Error for 3, None for 4 and for
every other integer. -/
def statedVerbosity (value : Int) : LoggerVerbosity :=
  match value with
  | 0 => .VERBOSITY_ALL
  | 1 => .VERBOSITY_INFO_WARNING_ERROR
  | 2 => .VERBOSITY_WARNING_ERROR
  | 3 => .VERBOSITY_ERROR
  | _ => .VERBOSITY_NONE

/-- A factory that creates every entity at address 30 and registers it in
the pool. -/
def sampleFactory : Factory Nat := fun className instanceName w =>
  (.ok 30, { w with entities := w.entities ++ [(30, ⟨instanceName, className, [], []⟩)] })

/-- A row of four floats. -/
def sampleRow4 : PyObject :=
  .tuple [.float (.num false 0), .float (.num false 0), .float (.num false 0),
    .float (.num false 0)]

/-- A command is ignored when it is empty, consists only of blanks (spaces
and tabs), or when its first non-blank character is `#`. -/
def isIgnoredCommand (command : String) : Prop :=
  (∀ c ∈ command.toList, c = Char.ofNat 32 ∨ c = Char.ofNat 9)
  ∨ ∃ blanks rest, command.toList = blanks ++ Char.ofNat 35 :: rest
      ∧ ∀ c ∈ blanks, c = Char.ofNat 32 ∨ c = Char.ofNat 9

/-- The thread-state after a sequence of acquisitions and releases: an
acquisition is possible only when the thread-state is not held, a release only
when it is held. -/
def threadStateAfter : ThreadState → List ThreadEvent → Option ThreadState
  | t, [] => some t
  | .Suspended, .acquire :: rest => threadStateAfter .Active rest
  | .Active, .release :: rest => threadStateAfter .Suspended rest
  | _, _ => Option.none

/-- A name is double-underscore-wrapped when it both starts with `__` and
ends with `__`. -/
def isDunderWrapped (name : String) : Bool :=
  "__".toList.isPrefixOf name.toList && "__".toList.isSuffixOf name.toList

/-- The namespace with `name` bound to `value`. -/
def bindGlobal (st : RuntimeState) (name : String) (value : PyObject) : RuntimeState :=
  { st with globals := (name, .value value) :: st.globals.filter fun b => b.1 != name }

/-- A runtime for the instances: what CPython does with a few snippets.
The assignment `x = 5` is a statement: as an `eval_input` it is a syntax error
and binds nothing, as a `file_input` it binds `x`.  The call
`globals().__setitem__('x', 5)` is an expression that binds `x`.  The writes
to `sys.stdout` and `sys.stderr` return `None`. -/
def sampleRuntime : Runtime := fun start source st =>
  if source = "x = 5" then
    match start with
    | .Py_eval_input =>
      (.raised "  File \"<string>\", line 1\n    x = 5\n      ^\nSyntaxError: invalid syntax\n",
        st)
    | .Py_file_input => (.value "None", bindGlobal st "x" (.int 5))
  else if source = "globals().__setitem__('x', 5)" then
    (.value "None", bindGlobal st "x" (.int 5))
  else if source = "x + 1" then
    match st.globals.lookup "x" with
    | some (.value (.int n)) => (.value (toString (n + 1)), st)
    | _ =>
      (.raised ("Traceback (most recent call last):\n  File \"<string>\", line 1, in <module>\n"
        ++ "NameError: name 'x' is not defined\n"), st)
  else if source = "sys.stdout.write('hello')" then
    (.value "None", { st with stdoutData := st.stdoutData ++ "hello" })
  else if source = "sys.stderr.write('warning')" then
    (.value "None", { st with stderrData := st.stderrData ++ "warning" })
  else if source = "1/0" then
    (.raised ("Traceback (most recent call last):\n  File \"<string>\", line 1, in <module>\n"
      ++ "ZeroDivisionError: division by zero\n"), st)
  else (.raised "SyntaxError: invalid syntax\n", st)

/-- A file system with one file, `init.py`, that holds `x = 5`. -/
def sampleFiles : String → Option String := fun path =>
  if path = "init.py" then some "x = 5" else Option.none

/-! ## The loop over the arguments -/

theorem decodeEvents_succ (start count : Nat) :
    decodeEvents start (count + 1) = Event.decode start :: decodeEvents (start + 1) count := by
  simp [decodeEvents, List.range'_succ]

theorem decodeLoop_ok (items : List PyObject) (types : List ValueType) :
    ∀ (count start : Nat) (state : List Value × List Event),
      (∀ j, start ≤ j → j < start + count →
        ∃ pv ty v, items.get? j = some pv ∧ types.get? j = some ty ∧ pythonToValue pv ty = .ok v) →
      ∃ vals, forLoop (decodeArgument (.tuple items) types) count start state
        = .ok (state.1 ++ vals, state.2 ++ decodeEvents start count) := by
  intro count
  induction count with
  | zero => intro start state _; exact ⟨[], by simp [forLoop, decodeEvents]⟩
  | succ n ih =>
    intro start state h
    obtain ⟨pv, ty, v, h1, h2, h3⟩ := h start (Nat.le_refl _) (by omega)
    obtain ⟨vals, hv⟩ := ih (start + 1) (state.1 ++ [v], state.2 ++ [.decode start])
      (fun j hj1 hj2 => h j (by omega) (by omega))
    refine ⟨v :: vals, ?_⟩
    simp only [forLoop, decodeArgument, PyTuple_GetItem, h1, h2, h3]
    rw [hv, decodeEvents_succ]
    simp

theorem decodeLoop_fail (items : List PyObject) (types : List ValueType) (i : Nat)
    (pv : PyObject) (ty : ValueType) (e : ExceptionPython)
    (h1 : items.get? i = some pv) (h2 : types.get? i = some ty)
    (h3 : pythonToValue pv ty = .fail e) :
    ∀ (count start : Nat) (state : List Value × List Event),
      start ≤ i → i < start + count →
      (∀ j, start ≤ j → j < i →
        ∃ pv ty v, items.get? j = some pv ∧ types.get? j = some ty ∧ pythonToValue pv ty = .ok v) →
      forLoop (decodeArgument (.tuple items) types) count start state
        = .fail (.setString .dgpyError
            ("while parsing argument " ++ toString (i + 1) ++ ": expecting " ++ e.what ++ "."),
          state.2 ++ decodeEvents start (i + 1 - start)) := by
  intro count
  induction count with
  | zero => intro start state hs hi; omega
  | succ n ih =>
    intro start state hs hi h
    by_cases hsi : start = i
    · subst hsi
      simp only [forLoop, decodeArgument, PyTuple_GetItem, h1, h2, h3]
      simp [decodeEvents]
    · obtain ⟨pv0, ty0, v0, g1, g2, g3⟩ := h start (Nat.le_refl _) (by omega)
      have := ih (start + 1) (state.1 ++ [v0], state.2 ++ [.decode start]) (by omega) (by omega)
        (fun j hj1 hj2 => h j (by omega) hj2)
      simp only [forLoop, decodeArgument, PyTuple_GetItem, g1, g2, g3]
      rw [this]
      have hk : i + 1 - start = (i + 1 - (start + 1)) + 1 := by omega
      rw [hk, decodeEvents_succ]
      simp

theorem decodeLoop_inv (items : List PyObject) (types : List ValueType) :
    ∀ (count start : Nat) (state : List Value × List Event),
      match forLoop (decodeArgument (.tuple items) types) count start state with
      | .ok (_, tr) =>
        (∀ j, start ≤ j → j < start + count →
          ∃ pv ty v, items.get? j = some pv ∧ types.get? j = some ty ∧ pythonToValue pv ty = .ok v)
        ∧ tr = state.2 ++ decodeEvents start count
      | .fail (_, tr) => ∃ k, tr = state.2 ++ decodeEvents start k
      | .undefined => True := by
  intro count
  induction count with
  | zero => intro start state; simp [forLoop, decodeEvents]; intro j h1 h2; omega
  | succ n ih =>
    intro start state
    simp only [forLoop]
    cases hb : decodeArgument (.tuple items) types start state with
    | undefined => simp
    | fail e =>
      simp only
      simp only [decodeArgument, PyTuple_GetItem] at hb
      split at hb
      · split at hb
        · cases hb
        · cases hb; exact ⟨1, by simp [decodeEvents]⟩
        · cases hb
      · cases hb
    | ok s1 =>
      simp only
      simp only [decodeArgument, PyTuple_GetItem] at hb
      split at hb
      · rename_i pv ty g1 g2
        split at hb
        · rename_i v g3
          cases hb
          have := ih (start + 1) (state.1 ++ [v], state.2 ++ [.decode start])
          revert this
          cases forLoop (decodeArgument (.tuple items) types) n (start + 1)
            (state.1 ++ [v], state.2 ++ [.decode start]) with
          | undefined => simp
          | fail e =>
            simp only
            rintro ⟨k, hk⟩
            exact ⟨k + 1, by rw [hk, decodeEvents_succ]; simp⟩
          | ok s2 =>
            simp only
            rintro ⟨ha, hb⟩
            refine ⟨?_, by rw [hb, decodeEvents_succ]; simp⟩
            intro j hj1 hj2
            by_cases hj : j = start
            · subst hj; exact ⟨pv, ty, v, g1, g2, g3⟩
            · exact ha j (by omega) (by omega)
        · cases hb
        · cases hb
      · cases hb

theorem lookup_eq_none_of_not_key {β : Type} (key : String) :
    ∀ (map : List (String × β)), key ∉ map.map Prod.fst → map.lookup key = Option.none := by
  intro map
  induction map with
  | nil => intro _; rfl
  | cons kc rest ih =>
    intro h
    obtain ⟨k, c⟩ := kc
    simp only [List.map_cons, List.mem_cons, not_or] at h
    have hk : (key == k) = false := by simpa using h.1
    simp only [List.lookup, hk]
    exact ih h.2

/-! ## The dispatcher -/

/-- C3 (arity before type).  For an existing command with `k` declared
parameter kinds and an argument tuple of length `n ≠ k`, `executeCommand`
fails with the error `command takes k parameters, n given.`, the trace is
empty (no argument was decoded, whatever the arguments are) and the world is
unchanged. -/
theorem executeCommand_arity_before_type {σ : Type} (w : World σ) (address : Nat)
    (entity : Entity σ) (commandName : String) (command : Command σ) (items : List PyObject)
    (hname : parseString (.str commandName) = some commandName)
    (hent : w.entityAt (some address) = some entity)
    (hcmd : entity.commandMap.lookup commandName = some command)
    (harity : items.length ≠ command.valueTypes.length) :
    executeCommand w
        (.tuple [.capsule "dynamic_graph.Entity" address, .str commandName, .tuple items])
      = ⟨.fail (.setString .dgpyError
          ("command takes " ++ toString command.valueTypes.length ++ " parameters, "
            ++ toString items.length ++ " given.")), w, []⟩ := by
  simp [executeCommand, hname, PyCapsule_CheckExact, PyCapsule_GetPointer, PyTuple_Check,
    PyTuple_Size, hent, mapCount, hcmd, harity]

/-- Instance of C3: the command declares two parameters, three arguments are
given, and the first one is a string where an `int` is declared. -/
theorem executeCommand_arity_before_type_witness :
    executeCommand sampleWorld
        (.tuple [.capsule "dynamic_graph.Entity" 10, .str "setGain",
          .tuple [.str "x", .float (.num false 0), .int 3]])
      = ⟨.fail (.setString .dgpyError "command takes 2 parameters, 3 given."), sampleWorld, []⟩ :=
  executeCommand_arity_before_type sampleWorld 10 sampleEntity "setGain" sampleCommand
    [.str "x", .float (.num false 0), .int 3] (by decide) rfl rfl (by decide)

/-- C5 (unknown command).  For a command name that is not a key of the
command map of the entity, `executeCommand` and `getCommandDocstring` fail with
the attribute error `'<entity name>' entity has no command '<command name>'.`;
the trace is empty (no arity check result, no decode, no execution) and the
world is unchanged, whatever the argument tuple holds. -/
theorem unknown_command {σ : Type} (w : World σ) (address : Nat) (entity : Entity σ)
    (commandName : String) (items : List PyObject)
    (hname : parseString (.str commandName) = some commandName)
    (hent : w.entityAt (some address) = some entity)
    (hkey : commandName ∉ entity.commandMap.map Prod.fst) :
    executeCommand w
        (.tuple [.capsule "dynamic_graph.Entity" address, .str commandName, .tuple items])
      = ⟨.fail (.setString .AttributeError
          ("'" ++ entity.name ++ "' entity has no command '" ++ commandName ++ "'.")), w, []⟩
    ∧ getCommandDocstring w (.tuple [.capsule "dynamic_graph.Entity" address, .str commandName])
      = ⟨.fail (.setString .AttributeError
          ("'" ++ entity.name ++ "' entity has no command '" ++ commandName ++ "'.")), w, []⟩ := by
  have hcmd := lookup_eq_none_of_not_key commandName entity.commandMap hkey
  constructor
  · simp [executeCommand, hname, PyCapsule_CheckExact, PyCapsule_GetPointer, PyTuple_Check,
      hent, mapCount, hcmd]
  · simp [getCommandDocstring, hname, PyCapsule_CheckExact, PyCapsule_GetPointer, hent, hcmd]

/-- Instance of C5: the entity `filter` has no command `reset`; the call has
the wrong number of arguments for every command and a wrong-typed argument. -/
theorem unknown_command_witness :
    executeCommand sampleWorld
        (.tuple [.capsule "dynamic_graph.Entity" 10, .str "reset", .tuple [.str "x"]])
      = ⟨.fail (.setString .AttributeError "'filter' entity has no command 'reset'."),
          sampleWorld, []⟩
    ∧ getCommandDocstring sampleWorld (.tuple [.capsule "dynamic_graph.Entity" 10, .str "reset"])
      = ⟨.fail (.setString .AttributeError "'filter' entity has no command 'reset'."),
          sampleWorld, []⟩ :=
  unknown_command sampleWorld 10 sampleEntity "reset" [.str "x"] (by decide) rfl (by decide)

theorem forLoop_fail {ε σ : Type} (body : Nat → σ → Outcome ε σ) (e : ε) :
    ∀ (count start : Nat) (s : σ), forLoop body count start s = .fail e →
      ∃ i s1, start ≤ i ∧ i < start + count ∧ body i s1 = .fail e := by
  intro count
  induction count with
  | zero => intro start s h; simp [forLoop] at h
  | succ n ih =>
    intro start s h
    simp only [forLoop] at h
    cases hb : body start s with
    | ok s1 =>
      rw [hb] at h
      obtain ⟨i, s2, h1, h2, h3⟩ := ih (start + 1) s1 h
      exact ⟨i, s2, by omega, by omega, h3⟩
    | fail e1 =>
      rw [hb] at h
      cases h
      exact ⟨start, s, Nat.le_refl _, by omega, hb⟩
    | undefined => rw [hb] at h; cases h

theorem set_ne_fail (m : MatrixBuffer) (i j : Nat) (d : Double) (e : ExceptionPython) :
    m.set i j d ≠ .fail e := by
  unfold MatrixBuffer.set
  split <;> simp

theorem fillMatrixRow_fail_code (m : MatrixBuffer) (iRow : Nat) (sequence : PyObject)
    (e : ExceptionPython) (h : fillMatrixRow m iRow sequence = .fail e) :
    e.code = .MATRIX_PARSING := by
  unfold fillMatrixRow at h
  split at h
  · cases h; rfl
  · obtain ⟨i, s1, _, _, hb⟩ := forLoop_fail _ e _ _ _ h
    split at hb
    · cases hb
    · split at hb
      · exact absurd hb (set_ne_fail _ _ _ _ _)
      · split at hb
        · exact absurd hb (set_ne_fail _ _ _ _ _)
        · cases hb; rfl

theorem fillMatrixRow4d_eq : fillMatrixRow4d = fillMatrixRow := rfl

/-- A failure of the top-level kind check carries the name of the expected
kind. -/
theorem pythonToValue_fail_kindName (x : PyObject) (ty : ValueType) (e : ExceptionPython)
    (h : pythonToValue x ty = .fail e) (hc : e.code = .VALUE_PARSING) :
    e.what = kindName ty := by
  cases ty
  case NONE => simp [pythonToValue] at h
  case BOOL => simp only [pythonToValue] at h; split at h <;> cases h; rfl
  case UNSIGNED => simp only [pythonToValue] at h; split at h <;> cases h; rfl
  case INT => simp only [pythonToValue] at h; split at h <;> cases h; rfl
  case FLOAT =>
    simp only [pythonToValue] at h
    split at h
    · cases h
    · split at h <;> cases h; rfl
  case DOUBLE =>
    simp only [pythonToValue] at h
    split at h
    · cases h
    · split at h <;> cases h; rfl
  case STRING => simp only [pythonToValue] at h; split at h <;> cases h; rfl
  case VECTOR =>
    simp only [pythonToValue] at h
    split at h
    · cases h; rfl
    · simp only [Outcome.bind] at h
      split at h
      · cases h
      · rename_i e1 hl
        cases h
        obtain ⟨i, s1, _, _, hb⟩ := forLoop_fail _ _ _ _ _ hl
        split at hb
        · cases hb
        · split at hb
          · cases hb
          · split at hb
            · cases hb
            · cases hb; cases hc
      · cases h
  case MATRIX =>
    simp only [pythonToValue] at h
    split at h
    · cases h; rfl
    · split at h
      · cases h
      · split at h
        · cases h
        · split at h
          · cases h; cases hc
          · simp only [Outcome.bind] at h
            split at h
            · split at h
              · split at h <;> cases h
              · rename_i e1 hl
                cases h
                obtain ⟨i, s1, _, _, hb⟩ := forLoop_fail _ _ _ _ _ hl
                split at hb
                · cases hb
                · split at hb
                  · cases hb; cases hc
                  · rw [fillMatrixRow_fail_code _ _ _ _ hb] at hc; cases hc
              · cases h
            · rename_i e1 hl
              cases h
              rw [fillMatrixRow_fail_code _ _ _ _ hl] at hc; cases hc
            · cases h
  case MATRIX4D =>
    simp only [pythonToValue, fillMatrixRow4d_eq] at h
    split at h
    · cases h; rfl
    · split at h
      · split at h <;> cases h
      · split at h
        · cases h
        · split at h
          · cases h; cases hc
          · simp only [Outcome.bind] at h
            split at h
            · split at h
              · split at h <;> cases h
              · rename_i e1 hl
                cases h
                obtain ⟨i, s1, _, _, hb⟩ := forLoop_fail _ _ _ _ _ hl
                split at hb
                · cases hb
                · split at hb
                  · cases hb; cases hc
                  · rw [fillMatrixRow_fail_code _ _ _ _ hb] at hc; cases hc
              · cases h
            · rename_i e1 hl
              cases h
              rw [fillMatrixRow_fail_code _ _ _ _ hl] at hc; cases hc
            · cases h

/-- A call on an existing command, after the argument parsing and the two
lookups: the arity check, the decode loop, then the execution. -/
theorem executeCommand_found {σ : Type} (w : World σ) (address : Nat)
    (entity : Entity σ) (commandName : String) (command : Command σ) (items : List PyObject)
    (hname : parseString (.str commandName) = some commandName)
    (hent : w.entityAt (some address) = some entity)
    (hcmd : entity.commandMap.lookup commandName = some command) :
    executeCommand w
        (.tuple [.capsule "dynamic_graph.Entity" address, .str commandName, .tuple items])
      = if items.length ≠ command.valueTypes.length then
          ⟨.fail (.setString .dgpyError
            ("command takes " ++ toString command.valueTypes.length ++ " parameters, "
              ++ toString items.length ++ " given.")), w, []⟩
        else
          match forLoop (decodeArgument (.tuple items) command.valueTypes) items.length 0
              ([], []) with
          | .fail (err, trace) => ⟨.fail err, w, trace⟩
          | .undefined => ⟨.undefined, w, []⟩
          | .ok (valueVector, trace) =>
            match command.doExecute valueVector
                (w.setParameterValues address commandName valueVector).native with
            | (.ok result, native) =>
              ⟨.ok (valueToPython result),
                { w.setParameterValues address commandName valueVector with native := native },
                trace ++ [.setParameterValues valueVector, .execute]⟩
            | (.error exc, native) =>
              ⟨.fail (catchAllExceptions exc),
                { w.setParameterValues address commandName valueVector with native := native },
                trace ++ [.setParameterValues valueVector, .execute]⟩ := by
  simp [executeCommand, hname, PyCapsule_CheckExact, PyCapsule_GetPointer, PyTuple_Check,
    PyTuple_Size, hent, mapCount, hcmd]

/-- C4 (first failing argument).  When the arity matches, the arguments before
position `i` (0-based) decode against their declared kinds and the argument at
`i` does not, then `executeCommand` fails with the message
`while parsing argument <i+1>: expecting <text of the decode failure>.`, where
the text of a failed kind check is the name of the declared kind; the trace is
`decode 0, ..., decode i`: the arguments were decoded in increasing order, the
call stopped at `i`, no later argument was decoded and nothing was executed. -/
theorem executeCommand_first_failing_argument {σ : Type} (w : World σ) (address : Nat)
    (entity : Entity σ) (commandName : String) (command : Command σ) (items : List PyObject)
    (i : Nat) (pyValue : PyObject) (valueType : ValueType) (e : ExceptionPython)
    (hname : parseString (.str commandName) = some commandName)
    (hent : w.entityAt (some address) = some entity)
    (hcmd : entity.commandMap.lookup commandName = some command)
    (harity : items.length = command.valueTypes.length)
    (hbefore : ∀ j, j < i → ∃ pv ty v, items.get? j = some pv
      ∧ command.valueTypes.get? j = some ty ∧ pythonToValue pv ty = .ok v)
    (hitem : items.get? i = some pyValue) (hkind : command.valueTypes.get? i = some valueType)
    (hfail : pythonToValue pyValue valueType = .fail e) :
    executeCommand w
        (.tuple [.capsule "dynamic_graph.Entity" address, .str commandName, .tuple items])
      = ⟨.fail (.setString .dgpyError
          ("while parsing argument " ++ toString (i + 1) ++ ": expecting " ++ e.what ++ ".")),
          w, (List.range (i + 1)).map Event.decode⟩
    ∧ (e.code = .VALUE_PARSING → e.what = kindName valueType) := by
  refine ⟨?_, pythonToValue_fail_kindName pyValue valueType e hfail⟩
  have hi : i < items.length := by
    rcases Nat.lt_or_ge i items.length with h | h
    · exact h
    · rw [List.get?_eq_none.mpr h] at hitem; cases hitem
  have hloop := decodeLoop_fail items command.valueTypes i pyValue valueType e hitem hkind hfail
    items.length 0 ([], []) (Nat.zero_le _) (by omega) (fun j _ hj => hbefore j hj)
  rw [executeCommand_found w address entity commandName command items hname hent hcmd,
    if_neg (not_not.mpr harity), hloop]
  simp [decodeEvents, List.range_eq_range']

/-- Instance of C4: the first argument decodes as `int`, the second one is a
string where a `double` is declared. -/
theorem executeCommand_first_failing_argument_witness :
    executeCommand sampleWorld
        (.tuple [.capsule "dynamic_graph.Entity" 10, .str "setGain",
          .tuple [.int 3, .str "x"]])
      = ⟨.fail (.setString .dgpyError "while parsing argument 2: expecting double."),
          sampleWorld, [.decode 0, .decode 1]⟩
    ∧ ((⟨.VALUE_PARSING, "double"⟩ : ExceptionPython).code = .VALUE_PARSING
        → (⟨.VALUE_PARSING, "double"⟩ : ExceptionPython).what = kindName .DOUBLE) :=
  executeCommand_first_failing_argument sampleWorld 10 sampleEntity "setGain" sampleCommand
    [.int 3, .str "x"] 1 (.str "x") .DOUBLE ⟨.VALUE_PARSING, "double"⟩ (by decide) rfl rfl rfl
    (by
      intro j hj
      have hj0 : j = 0 := by omega
      subst hj0
      exact ⟨.int 3, .INT, .int 3, rfl, rfl, by decide⟩)
    rfl rfl (by decide)

/-- C2 (atomicity).  For a call on an existing command: if some argument fails
to decode against its declared kind, the world after the call is the world
before it (stored parameters and native state included), the trace holds
decode events only (neither `setParameterValues` nor `execute` was called) and
the call does not return a value; and whenever `execute` is in the trace,
every argument decoded successfully and the trace is all the decodes, then
`setParameterValues`, then `execute`. -/
theorem executeCommand_atomic {σ : Type} (w : World σ) (address : Nat)
    (entity : Entity σ) (commandName : String) (command : Command σ) (items : List PyObject)
    (hname : parseString (.str commandName) = some commandName)
    (hent : w.entityAt (some address) = some entity)
    (hcmd : entity.commandMap.lookup commandName = some command) :
    ((∃ i pv ty e, items.get? i = some pv ∧ command.valueTypes.get? i = some ty
        ∧ pythonToValue pv ty = .fail e) →
      (executeCommand w
        (.tuple [.capsule "dynamic_graph.Entity" address, .str commandName, .tuple items])).world
        = w
      ∧ (∀ ev ∈ (executeCommand w
          (.tuple [.capsule "dynamic_graph.Entity" address, .str commandName,
            .tuple items])).trace, ∃ j, ev = .decode j)
      ∧ ∀ p, (executeCommand w
          (.tuple [.capsule "dynamic_graph.Entity" address, .str commandName,
            .tuple items])).result ≠ .ok p)
    ∧ (Event.execute ∈ (executeCommand w
          (.tuple [.capsule "dynamic_graph.Entity" address, .str commandName,
            .tuple items])).trace →
      (∀ j, j < items.length → ∃ pv ty v, items.get? j = some pv
        ∧ command.valueTypes.get? j = some ty ∧ pythonToValue pv ty = .ok v)
      ∧ ∃ values, (executeCommand w
          (.tuple [.capsule "dynamic_graph.Entity" address, .str commandName,
            .tuple items])).trace
          = (List.range items.length).map Event.decode
            ++ [.setParameterValues values, .execute]) := by
  have hinv := decodeLoop_inv items command.valueTypes items.length 0 ([], [])
  rw [executeCommand_found w address entity commandName command items hname hent hcmd]
  by_cases harity : items.length = command.valueTypes.length
  · rw [if_neg (not_not.mpr harity)]
    cases hl : forLoop (decodeArgument (.tuple items) command.valueTypes) items.length 0
        ([], []) with
    | undefined => simp
    | fail et =>
      obtain ⟨err, tr⟩ := et
      rw [hl] at hinv
      obtain ⟨k, hk⟩ := hinv
      simp only [List.nil_append] at hk
      subst hk
      refine ⟨fun _ => ⟨rfl, ?_, fun p hp => by cases hp⟩, fun hex => ?_⟩
      · intro ev hev
        simp only [decodeEvents, List.mem_map] at hev
        obtain ⟨j, _, hj⟩ := hev
        exact ⟨j, hj.symm⟩
      · simp [decodeEvents] at hex
    | ok vt =>
      obtain ⟨vv, tr⟩ := vt
      rw [hl] at hinv
      obtain ⟨hall, htr⟩ := hinv
      simp only [List.nil_append] at htr
      subst htr
      constructor
      · rintro ⟨i, pv, ty, e, h1, h2, h3⟩
        exfalso
        have hi : i < command.valueTypes.length := by
          rcases Nat.lt_or_ge i command.valueTypes.length with h | h
          · exact h
          · rw [List.get?_eq_none.mpr h] at h2; cases h2
        obtain ⟨pv1, ty1, v1, g1, g2, g3⟩ := hall i (Nat.zero_le _) (by omega)
        rw [h1] at g1; cases g1
        rw [h2] at g2; cases g2
        rw [h3] at g3; cases g3
      · intro _
        refine ⟨fun j hj => hall j (Nat.zero_le _) (by omega), vv, ?_⟩
        dsimp only
        split <;> simp [decodeEvents, List.range_eq_range']
  · rw [if_pos harity]
    refine ⟨fun _ => ⟨rfl, ?_, ?_⟩, fun hex => ?_⟩
    · intro ev hev; cases hev
    · intro p hp; cases hp
    · cases hex

/-- Instance of C2 ("valid arg 1 and invalid arg 2"): the native body counts
its runs in the native state, which is still 0 after the call. -/
theorem executeCommand_atomic_witness :
    (executeCommand sampleWorld
        (.tuple [.capsule "dynamic_graph.Entity" 10, .str "setGain",
          .tuple [.int 3, .str "x"]])).world = sampleWorld
    ∧ (∀ ev ∈ (executeCommand sampleWorld
        (.tuple [.capsule "dynamic_graph.Entity" 10, .str "setGain",
          .tuple [.int 3, .str "x"]])).trace, ∃ j, ev = .decode j)
    ∧ ∀ p, (executeCommand sampleWorld
        (.tuple [.capsule "dynamic_graph.Entity" 10, .str "setGain",
          .tuple [.int 3, .str "x"]])).result ≠ .ok p :=
  (executeCommand_atomic sampleWorld 10 sampleEntity "setGain" sampleCommand
    [.int 3, .str "x"] (by decide) rfl rfl).1
    ⟨1, .str "x", .DOUBLE, ⟨.VALUE_PARSING, "double"⟩, rfl, rfl, by decide⟩

/-! ## Sequences and storage -/

theorem allSome_map_some {α : Type} (l : List α) : allSome (l.map some) = some l := by
  induction l with
  | nil => rfl
  | cons a rest ih => simp [allSome, ih]

theorem allSome_length {α : Type} :
    ∀ (l : List (Option α)) (as : List α), allSome l = some as → as.length = l.length := by
  intro l
  induction l with
  | nil => intro as h; simp [allSome] at h; simp [← h]
  | cons y rest ih =>
    intro as h
    cases y with
    | none => simp [allSome] at h
    | some a =>
      simp only [allSome, Option.map_eq_some'] at h
      obtain ⟨bs, hb, rfl⟩ := h
      simp [ih bs hb]

theorem allSome_get {α : Type} :
    ∀ (l : List (Option α)) (as : List α), allSome l = some as →
      ∀ i, i < l.length → l.get? i = some (as.get? i) := by
  intro l
  induction l with
  | nil => intro as _ i hi; simp at hi
  | cons y rest ih =>
    intro as h i hi
    cases y with
    | none => simp [allSome] at h
    | some a =>
      simp only [allSome, Option.map_eq_some'] at h
      obtain ⟨bs, hb, rfl⟩ := h
      cases i with
      | zero => simp
      | succ k =>
        have := ih bs hb k (by simpa using hi)
        simpa using this

theorem range_map_get {α : Type} (l : List α) :
    (List.range l.length).map (fun j => l.get? j) = l.map some := by
  apply List.ext_get?
  intro i
  simp only [List.get?_eq_getElem?, List.getElem?_map, List.getElem?_range]
  by_cases h : i < l.length
  · simp [List.getElem?_range h, List.getElem?_eq_getElem h]
  · have h1 : l.length ≤ i := Nat.le_of_not_lt h
    simp [List.getElem?_eq_none h1, h1]

theorem freeze_bufferOf (rows cols : Nat) (table : List (List Double))
    (h : shaped rows cols table) : (bufferOf rows cols table).freeze = some table := by
  obtain ⟨h1, h2⟩ := h
  subst h1
  simp only [MatrixBuffer.freeze, bufferOf]
  have hrow : ∀ i, i < table.length →
      allSome ((List.range cols).map fun j => (table.get? i).bind fun r => r.get? j)
        = table.get? i := by
    intro i hi
    have hr : table.get? i = some (table.get ⟨i, hi⟩) := List.get?_eq_get hi
    have hc : (table.get ⟨i, hi⟩).length = cols := h2 _ (List.get_mem table i hi)
    rw [hr]
    simp only [Option.some_bind]
    rw [← hc, range_map_get, allSome_map_some]
  have : (List.range table.length).map
      (fun i => allSome ((List.range cols).map fun j => (table.get? i).bind fun r => r.get? j))
      = (List.range table.length).map (fun i => table.get? i) := by
    apply List.map_congr_left
    intro i hi
    exact hrow i (List.mem_range.mp hi)
  rw [this, range_map_get, allSome_map_some]

theorem bufferOf_append_nil (rows cols : Nat) (table : List (List Double)) :
    bufferOf rows cols (table ++ [[]]) = bufferOf rows cols table := by
  simp only [bufferOf, MatrixBuffer.mk.injEq, true_and]
  funext i j
  rcases Nat.lt_trichotomy i table.length with h | h | h
  · simp [List.getElem?_append_left h]
  · subst h; simp
  · simp [List.getElem?_eq_none (Nat.le_of_lt h), List.getElem?_eq_none (show (table ++ [[]]).length ≤ i by simp; omega)]

theorem set_bufferOf (rows cols : Nat) (table : List (List Double)) (acc : List Double)
    (d : Double) (hr : table.length < rows) (hc : acc.length < cols) :
    (bufferOf rows cols (table ++ [acc])).set table.length acc.length d
      = .ok (bufferOf rows cols (table ++ [acc ++ [d]])) := by
  simp only [MatrixBuffer.set, bufferOf, hr, hc, and_self, ↓reduceIte, Outcome.ok.injEq,
    MatrixBuffer.mk.injEq, true_and]
  funext i j
  rcases Nat.lt_trichotomy i table.length with h | h | h
  · have hne : i ≠ table.length := Nat.ne_of_lt h
    simp [List.getElem?_append_left h, hne]
  · subst h
    simp only [true_and, List.get?_eq_getElem?, List.getElem?_concat_length, Option.some_bind]
    rcases Nat.lt_trichotomy j acc.length with g | g | g
    · have hne : j ≠ acc.length := Nat.ne_of_lt g
      simp [hne, List.getElem?_append_left g]
    · subst g; simp
    · have hne : j ≠ acc.length := Nat.ne_of_gt g
      simp [hne, List.getElem?_eq_none (Nat.le_of_lt g),
        List.getElem?_eq_none (show (acc ++ [d]).length ≤ j by simp; omega)]
  · have hne : i ≠ table.length := Nat.ne_of_gt h
    simp [hne, List.getElem?_eq_none (show (table ++ [acc]).length ≤ i by simp; omega),
      List.getElem?_eq_none (show (table ++ [acc ++ [d]]).length ≤ i by simp; omega)]

theorem PySequence_Check_of_items (o : PyObject) (items : List PyObject)
    (h : sequenceItems o = some items) : PySequence_Check o = true := by
  simp [PySequence_Check, h]

theorem PySequence_Size_of_items (o : PyObject) (items : List PyObject)
    (h : sequenceItems o = some items) : PySequence_Size o = (items.length : Int) := by
  simp [PySequence_Size, h]

theorem PySequence_GetItem_of_items (o : PyObject) (items : List PyObject)
    (h : sequenceItems o = some items) (i : Nat) : PySequence_GetItem o i = items.get? i := by
  simp [PySequence_GetItem, h]

theorem fillRow_loop (rows cols : Nat) (table : List (List Double)) (row : PyObject)
    (items : List PyObject) (hitems : sequenceItems row = some items)
    (hr : table.length < rows) (hlen : items.length = cols) :
    ∀ (k j : Nat) (acc : List Double), acc.length = j → j + k = items.length →
      forLoop (fun iCol (m : MatrixBuffer) =>
          match PySequence_GetItem row iCol with
          | Option.none => (.undefined : Outcome ExceptionPython MatrixBuffer)
          | some pyDouble =>
            if PyFloat_Check pyDouble then m.set table.length iCol (PyFloat_AsDouble pyDouble)
            else if PyInt_Check pyDouble then
              m.set table.length iCol (longToDouble (wrapInt (PyInt_AS_LONG pyDouble))).addZero
            else .fail ⟨.MATRIX_PARSING, "element of matrix should be a floating point number."⟩)
          k j (bufferOf rows cols (table ++ [acc]))
        = match allSome ((items.drop j).map coefficientOf) with
          | some ds => .ok (bufferOf rows cols (table ++ [acc ++ ds]))
          | Option.none =>
            .fail ⟨.MATRIX_PARSING, "element of matrix should be a floating point number."⟩ := by
  intro k
  induction k with
  | zero =>
    intro j acc _ hj
    have : items.drop j = [] := List.drop_eq_nil_of_le (by omega)
    simp [forLoop, this, allSome]
  | succ n ih =>
    intro j acc hacc hj
    have hjlt : j < items.length := by omega
    have hdrop : items.drop j = items[j] :: items.drop (j + 1) := List.drop_eq_getElem_cons hjlt
    have hget : PySequence_GetItem row j = some items[j] := by
      rw [PySequence_GetItem_of_items row items hitems, List.get?_eq_getElem?,
        List.getElem?_eq_getElem hjlt]
    have hcol : acc.length < cols := by omega
    simp only [forLoop, hget, hdrop, List.map_cons, allSome]
    cases hf : PyFloat_Check items[j] with
    | true =>
      have hset := set_bufferOf rows cols table acc (PyFloat_AsDouble items[j]) hr hcol
      rw [hacc] at hset
      have hco : coefficientOf items[j] = some (PyFloat_AsDouble items[j]) := by
        simp [coefficientOf, hf]
      simp only [↓reduceIte, hset, hco, allSome]
      rw [ih (j + 1) (acc ++ [PyFloat_AsDouble items[j]]) (by simp [hacc]) (by omega)]
      cases allSome ((items.drop (j + 1)).map coefficientOf) <;> simp
    | false =>
      cases hi : PyInt_Check items[j] with
      | true =>
        have hset := set_bufferOf rows cols table acc
          (longToDouble (wrapInt (PyInt_AS_LONG items[j]))).addZero hr hcol
        rw [hacc] at hset
        have hco : coefficientOf items[j]
            = some (longToDouble (wrapInt (PyInt_AS_LONG items[j]))).addZero := by
          simp [coefficientOf, hf, hi]
        simp only [Bool.false_eq_true, ↓reduceIte, hset, hco, allSome]
        rw [ih (j + 1) (acc ++ [(longToDouble (wrapInt (PyInt_AS_LONG items[j]))).addZero])
          (by simp [hacc]) (by omega)]
        cases allSome ((items.drop (j + 1)).map coefficientOf) <;> simp
      | false =>
        have hco : coefficientOf items[j] = Option.none := by simp [coefficientOf, hf, hi]
        simp [hco, allSome]

/-- `fillMatrixRow` on the next row of a storage that holds `table`: the row
is appended when it has `cols` items that all have a coefficient; otherwise
the call throws `MATRIX_PARSING`. -/
theorem fillMatrixRow_bufferOf (rows cols : Nat) (table : List (List Double)) (row : PyObject)
    (items : List PyObject) (hitems : sequenceItems row = some items)
    (hr : table.length < rows) :
    fillMatrixRow (bufferOf rows cols table) table.length row
      = if items.length ≠ cols then
          .fail ⟨.MATRIX_PARSING, "lines of matrix have different sizes."⟩
        else
          match allSome (items.map coefficientOf) with
          | some ds => .ok (bufferOf rows cols (table ++ [ds]))
          | Option.none =>
            .fail ⟨.MATRIX_PARSING, "element of matrix should be a floating point number."⟩ := by
  unfold fillMatrixRow
  rw [PySequence_Size_of_items row items hitems]
  by_cases hlen : items.length = cols
  · have h1 : ¬ ((items.length : Int) ≠ ((bufferOf rows cols table).cols : Int)) := by
      simp [bufferOf, hlen]
    rw [if_neg h1, if_neg (not_not.mpr hlen)]
    have := fillRow_loop rows cols table row items hitems hr hlen cols 0 [] rfl (by omega)
    rw [bufferOf_append_nil] at this
    simpa using this
  · have h1 : (items.length : Int) ≠ ((bufferOf rows cols table).cols : Int) := by
      simp only [bufferOf]
      exact_mod_cast hlen
    rw [if_pos h1, if_pos hlen]

theorem resize_eq_bufferOf (rows cols : Nat) :
    MatrixBuffer.resize rows cols = bufferOf rows cols [] := by
  simp [MatrixBuffer.resize, bufferOf]

theorem fixed4_eq_bufferOf : MatrixBuffer.fixed4 = bufferOf 4 4 [] := by
  simp [MatrixBuffer.fixed4, bufferOf]

theorem rowCoefficients_length (cols : Nat) (row : PyObject) (ds : List Double)
    (h : rowCoefficients cols row = some ds) : ds.length = cols := by
  unfold rowCoefficients at h
  split at h
  · split at h
    · rename_i items _ hlen
      rw [allSome_length _ _ h, List.length_map, hlen]
    · cases h
  · cases h

theorem shaped_of_rowCoefficients (cols : Nat) :
    ∀ (rowsPy : List PyObject) (table : List (List Double)),
      allSome (rowsPy.map (rowCoefficients cols)) = some table →
      shaped rowsPy.length cols table := by
  intro rowsPy
  induction rowsPy with
  | nil =>
    intro table h
    simp [allSome] at h
    subst h
    exact ⟨rfl, fun r hr => by cases hr⟩
  | cons row rest ih =>
    intro table h
    simp only [List.map_cons] at h
    cases hrow : rowCoefficients cols row with
    | none => rw [hrow] at h; simp [allSome] at h
    | some ds =>
      rw [hrow] at h
      simp only [allSome, Option.map_eq_some'] at h
      obtain ⟨tbl, htbl, rfl⟩ := h
      obtain ⟨h1, h2⟩ := ih tbl htbl
      refine ⟨by simp [h1], ?_⟩
      intro r hr
      rcases List.mem_cons.mp hr with h | h
      · rw [h]; exact rowCoefficients_length cols row ds hrow
      · exact h2 r h

/-- One step of the loop over the rows, on a storage that holds `table`. -/
theorem fillRow_step (rows cols : Nat) (table : List (List Double)) (row : PyObject)
    (hr : table.length < rows) :
    (if (!PySequence_Check row) = true then
        (.fail ⟨.MATRIX_PARSING, "matrix"⟩ : Outcome ExceptionPython MatrixBuffer)
      else fillMatrixRow (bufferOf rows cols table) table.length row)
      = match rowCoefficients cols row with
        | some ds => .ok (bufferOf rows cols (table ++ [ds]))
        | Option.none =>
          .fail ⟨.MATRIX_PARSING,
            if (!PySequence_Check row) = true then "matrix"
            else if PySequence_Size row ≠ (cols : Int) then "lines of matrix have different sizes."
            else "element of matrix should be a floating point number."⟩ := by
  cases hitems : sequenceItems row with
  | none => simp [PySequence_Check, rowCoefficients, hitems]
  | some items =>
    have hc : PySequence_Check row = true := PySequence_Check_of_items row items hitems
    rw [fillMatrixRow_bufferOf rows cols table row items hitems hr,
      PySequence_Size_of_items row items hitems]
    simp only [hc, Bool.not_true, Bool.false_eq_true, ↓reduceIte, rowCoefficients, hitems]
    by_cases hlen : items.length = cols
    · have h2 : ¬ ((items.length : Int) ≠ (cols : Int)) := by simp [hlen]
      simp only [hlen, ne_eq, not_true_eq_false, ↓reduceIte]
    · have h2 : (items.length : Int) ≠ (cols : Int) := by exact_mod_cast hlen
      simp [hlen, h2]

theorem fillRows_loop (rows cols : Nat) (x : PyObject) (rowsPy : List PyObject)
    (hx : sequenceItems x = some rowsPy) :
    ∀ (k : Nat) (table : List (List Double)),
      table.length + k ≤ rows → table.length + k ≤ rowsPy.length →
      match allSome (((rowsPy.drop table.length).take k).map (rowCoefficients cols)) with
      | some tbl =>
        forLoop (fun iRow (m : MatrixBuffer) =>
            match PySequence_GetItem x iRow with
            | Option.none => (.undefined : Outcome ExceptionPython MatrixBuffer)
            | some row =>
              if (!PySequence_Check row) = true then .fail ⟨.MATRIX_PARSING, "matrix"⟩
              else fillMatrixRow m iRow row)
          k table.length (bufferOf rows cols table)
        = .ok (bufferOf rows cols (table ++ tbl))
      | Option.none =>
        ∃ message,
        forLoop (fun iRow (m : MatrixBuffer) =>
            match PySequence_GetItem x iRow with
            | Option.none => (.undefined : Outcome ExceptionPython MatrixBuffer)
            | some row =>
              if (!PySequence_Check row) = true then .fail ⟨.MATRIX_PARSING, "matrix"⟩
              else fillMatrixRow m iRow row)
          k table.length (bufferOf rows cols table)
        = .fail ⟨.MATRIX_PARSING, message⟩ := by
  intro k
  induction k with
  | zero => intro table _ _; simp [forLoop, allSome]
  | succ n ih =>
    intro table h1 h2
    have hlt : table.length < rowsPy.length := by omega
    have hdrop : rowsPy.drop table.length
        = rowsPy[table.length] :: rowsPy.drop (table.length + 1) := List.drop_eq_getElem_cons hlt
    have hget : PySequence_GetItem x table.length = some rowsPy[table.length] := by
      rw [PySequence_GetItem_of_items x rowsPy hx, List.get?_eq_getElem?,
        List.getElem?_eq_getElem hlt]
    have hstep := fillRow_step rows cols table rowsPy[table.length] (by omega)
    simp only [hdrop, List.take_succ_cons, List.map_cons, forLoop, hget, hstep]
    cases hrow : rowCoefficients cols rowsPy[table.length] with
    | none => simp only [allSome]; exact ⟨_, rfl⟩
    | some ds =>
      have := ih (table ++ [ds]) (by simp; omega) (by simp; omega)
      simp only [List.length_append, List.length_singleton, List.append_assoc,
        List.singleton_append] at this
      simp only [allSome]
      cases hrest : allSome (((rowsPy.drop (table.length + 1)).take n).map (rowCoefficients cols))
        with
      | none => rw [hrest] at this; simpa using this
      | some tbl => rw [hrest] at this; simpa using this

theorem rowCoefficients_of_items (cols : Nat) (row : PyObject) (items : List PyObject)
    (h : sequenceItems row = some items) (hlen : items.length = cols) :
    rowCoefficients cols row = allSome (items.map coefficientOf) := by
  simp [rowCoefficients, h, hlen]

/-- Decoding a sequence with at least one row against `MATRIX`, when the
first row is a sequence: the result is the table of the coefficients of the
rows, each of the length of the first row; if some row has no such
coefficients, the decode throws `MATRIX_PARSING`. -/
theorem pythonToValue_matrix (x first : PyObject) (rest items0 : List PyObject)
    (hx : sequenceItems x = some (first :: rest)) (h0 : sequenceItems first = some items0) :
    match allSome ((first :: rest).map (rowCoefficients items0.length)) with
    | some table =>
      pythonToValue x .MATRIX = .ok (.matrix ⟨rest.length + 1, items0.length, table⟩)
    | Option.none => ∃ message, pythonToValue x .MATRIX = .fail ⟨.MATRIX_PARSING, message⟩ := by
  have hcx : PySequence_Check x = true := PySequence_Check_of_items x _ hx
  have hc0 : PySequence_Check first = true := PySequence_Check_of_items first _ h0
  have hsx : (PySequence_Size x).toNat = rest.length + 1 := by
    rw [PySequence_Size_of_items x _ hx]; simp
  have hs0 : (PySequence_Size first).toNat = items0.length := by
    rw [PySequence_Size_of_items first _ h0]; simp
  have hg0 : PySequence_GetItem x 0 = some first := by
    rw [PySequence_GetItem_of_items x _ hx]; rfl
  have hfill := fillMatrixRow_bufferOf (rest.length + 1) items0.length [] first items0 h0
    (by simp)
  simp only [List.length_nil, ne_eq, not_true_eq_false, ↓reduceIte, List.nil_append] at hfill
  have hrow0 := rowCoefficients_of_items items0.length first items0 h0 rfl
  have hloop := fillRows_loop (rest.length + 1) items0.length x (first :: rest) hx rest.length
  simp only [pythonToValue, hcx, Bool.not_true, Bool.false_eq_true, ↓reduceIte, hsx,
    Nat.add_one_ne_zero, hg0, hc0, hs0, resize_eq_bufferOf, hfill, List.map_cons, hrow0,
    Nat.add_sub_cancel]
  cases hds : allSome (items0.map coefficientOf) with
  | none => simp only [allSome, Outcome.bind]; exact ⟨_, rfl⟩
  | some ds0 =>
    have hl := hloop [ds0] (by simp; omega) (by simp; omega)
    simp only [List.length_singleton, List.drop_succ_cons, List.drop_zero, List.take_length,
      List.singleton_append] at hl
    simp only [allSome, Outcome.bind]
    cases hrest : allSome (rest.map (rowCoefficients items0.length)) with
    | none =>
      rw [hrest] at hl
      obtain ⟨message, hm⟩ := hl
      simp only [Option.map_none']
      exact ⟨message, by rw [hm]⟩
    | some tbl =>
      rw [hrest] at hl
      simp only [Option.map_some']
      have hshape : shaped (rest.length + 1) items0.length (ds0 :: tbl) := by
        have := shaped_of_rowCoefficients items0.length (first :: rest) (ds0 :: tbl)
          (by simp [allSome, hrow0, hds, hrest])
        simpa using this
      rw [hl]
      simp only [freeze_bufferOf _ _ _ hshape]
      rfl

theorem pythonToValue_matrix_first_not_sequence (x first : PyObject) (rest : List PyObject)
    (hx : sequenceItems x = some (first :: rest)) (h0 : sequenceItems first = Option.none) :
    pythonToValue x .MATRIX = .fail ⟨.MATRIX_PARSING, "matrix"⟩ := by
  have hcx : PySequence_Check x = true := PySequence_Check_of_items x _ hx
  have hc0 : PySequence_Check first = false := by simp [PySequence_Check, h0]
  have hsx : (PySequence_Size x).toNat = rest.length + 1 := by
    rw [PySequence_Size_of_items x _ hx]; simp
  have hg0 : PySequence_GetItem x 0 = some first := by
    rw [PySequence_GetItem_of_items x _ hx]; rfl
  simp [pythonToValue, hcx, hsx, hg0, hc0]

/-! ## The scalar kinds, the encoder, the handles -/

/-- C7, as stated, fails: the boolean `True` is no integer object, and it
decodes against `Int` (to 1) and against `Double` (to 1.0). -/
theorem scalar_kind_check_counterexample :
    pythonToValue (.bool true) .INT = .ok (.int 1)
    ∧ pythonToValue (.bool true) .DOUBLE = .ok (.double (.num false 0x3FF0000000000000))
    ∧ ¬ statedScalarShape .INT (.bool true)
    ∧ ¬ statedScalarShape .DOUBLE (.bool true) := by
  refine ⟨by decide, by decide, ?_, ?_⟩
  · rintro ⟨n, h⟩; cases h
  · rintro (⟨n, h⟩ | ⟨d, h⟩) <;> cases h

/-- C7, amended.  For a scalar kind, `pythonToValue` returns a value exactly
when the script value is a boolean (kind Bool), an integer or a boolean
(kinds Unsigned and Int), an integer, a boolean or a float (kinds Float and
Double), or a string (kind String); in every other case it throws
`VALUE_PARSING` with the name of the kind. -/
theorem scalar_kind_check (x : PyObject) (valueType : ValueType)
    (hscalar : valueType.isScalar = true) :
    ((∃ v, pythonToValue x valueType = .ok v) ↔ acceptedScalarShape valueType x)
    ∧ (¬ acceptedScalarShape valueType x →
        pythonToValue x valueType = .fail ⟨.VALUE_PARSING, kindName valueType⟩) := by
  cases valueType <;> simp only [ValueType.isScalar, Bool.false_eq_true] at hscalar <;>
    cases x <;>
    simp [pythonToValue, acceptedScalarShape, PyBool_Check, PyInt_Check, PyFloat_Check,
      PyString_Check, kindName]

/-- Instance of C7: a float given for `Int` is rejected. -/
theorem scalar_kind_check_witness :
    ((∃ v, pythonToValue (.float (.num false 0)) .INT = .ok v)
        ↔ acceptedScalarShape .INT (.float (.num false 0)))
    ∧ (¬ acceptedScalarShape .INT (.float (.num false 0)) →
        pythonToValue (.float (.num false 0)) .INT = .fail ⟨.VALUE_PARSING, kindName .INT⟩) :=
  scalar_kind_check (.float (.num false 0)) .INT rfl

/-- C9 at the failing input.  The script integer 2147483648 decodes against
`Double` to 2147483648.0, but as an element of a vector or of a matrix it is
first cut to a 32-bit `int` and decodes to -2147483648.0, a different
double. -/
theorem integer_widening_element_truncated :
    pythonToValue (.int 2147483648) .DOUBLE = .ok (.double (.num false 0x41E0000000000000))
    ∧ pythonToValue (.tuple [.int 2147483648]) .VECTOR
        = .ok (.vector [.num true 0x41E0000000000000])
    ∧ pythonToValue (.tuple [.tuple [.int 2147483648]]) .MATRIX
        = .ok (.matrix ⟨1, 1, [[.num true 0x41E0000000000000]]⟩)
    ∧ longToDouble 2147483648 = .num false 0x41E0000000000000
    ∧ longToDouble (-2147483648) = .num true 0x41E0000000000000
    ∧ wrapInt 2147483648 = -2147483648 := by
  refine ⟨by decide, by decide, by decide, by decide, by decide, by decide⟩

theorem range_map_getD {α β : Type} (f : α → β) (d : α) (l : List α) :
    (List.range l.length).map (fun i => f (l.getD i d)) = l.map f := by
  apply List.ext_get?
  intro i
  simp only [List.get?_eq_getElem?, List.getElem?_map]
  by_cases h : i < l.length
  · simp [List.getElem?_range h, List.getElem?_eq_getElem h, List.getD_eq_getElem?_getD]
  · have h1 : l.length ≤ i := Nat.le_of_not_lt h
    simp [List.getElem?_eq_none h1, h1]

theorem vectorToPython_eq (v : Vector) : vectorToPython v = .tuple (v.map PyObject.float) := by
  simp only [vectorToPython]
  rw [range_map_getD PyObject.float]

theorem isFloatTable_range (rows cols : Nat) (coeff : List (List Double)) :
    isFloatTable rows cols coeff
      (.tuple ((List.range rows).map fun iRow =>
        .tuple ((List.range cols).map fun iCol => .float (coeffAt coeff iRow iCol)))) := by
  refine ⟨_, rfl, by simp, ?_⟩
  intro i hi
  refine ⟨(List.range cols).map fun iCol => .float (coeffAt coeff i iCol), ?_, by simp, ?_⟩
  · simp [List.getElem?_range hi]
  · intro j hj
    simp [List.getElem?_range hj]

/-- C10 (encoding is total).  `valueToPython` is a total function, and for
every tagged value its result is the script value the specification gives:
a boolean for `Bool`, an integer for `Unsigned` and `Int`, a float for `Float`
and `Double`, a text for `String`, the flat sequence of the coefficients in
order for a `Vector`, the sequence of `rows` sequences of `cols` floats in row
order for a `Matrix` (4 and 4 for a `Matrix4`), and `None` for a value of
another kind. -/
theorem valueToPython_total (value : Value) : encodedAs value (valueToPython value) := by
  cases value with
  | none => rfl
  | bool b => cases b <;> rfl
  | unsigned u => rfl
  | int i => rfl
  | float f => rfl
  | double d => rfl
  | string s => rfl
  | vector v => exact vectorToPython_eq v
  | matrix m => exact isFloatTable_range m.rows m.cols m.coeff
  | matrix4d m => exact isFloatTable_range 4 4 m.coeff

/-- C6 at the failing inputs.  Wrapping a native (non-null) address with the
entity tag and unwrapping with the entity tag gives the address back, and
unwrapping a handle of the other tag gives `NULL`; but `getName` on a signal handle, `executeCommand` on a signal handle
and `plug` into an entity handle do not stop there: they call a method on that
`NULL` pointer, which is outside defined behaviour, and set no error. -/
theorem handle_tag_mismatch_dereferenced {σ : Type} (w : World σ) (a b : Nat)
    (commandName : String) (items : List PyObject)
    (hname : parseString (.str commandName) = some commandName) :
    (PyCapsule_New (a + 1) "dynamic_graph.Entity").bind
        (fun handle => PyCapsule_GetPointer handle "dynamic_graph.Entity") = some (a + 1)
    ∧ PyCapsule_GetPointer (.capsule "dynamic_graph.Entity" a) "dynamic_graph.Entity" = some a
    ∧ PyCapsule_GetPointer (.capsule "dynamic_graph.Signal" a) "dynamic_graph.Entity"
        = Option.none
    ∧ PyCapsule_GetPointer (.capsule "dynamic_graph.Entity" a) "dynamic_graph.Signal"
        = Option.none
    ∧ (getName w (.tuple [.capsule "dynamic_graph.Signal" a])).result = .undefined
    ∧ (executeCommand w
        (.tuple [.capsule "dynamic_graph.Signal" a, .str commandName, .tuple items])).result
        = .undefined
    ∧ (plug w (.tuple [.capsule "dynamic_graph.Signal" b,
        .capsule "dynamic_graph.Entity" a])).result = .undefined := by
  refine ⟨by simp [PyCapsule_New, PyCapsule_GetPointer], by simp [PyCapsule_GetPointer],
    by simp [PyCapsule_GetPointer], by simp [PyCapsule_GetPointer], ?_, ?_, ?_⟩
  · simp [getName, PyCapsule_CheckExact, PyCapsule_GetPointer, World.entityAt]
  · simp [executeCommand, hname, PyCapsule_CheckExact, PyCapsule_GetPointer, PyTuple_Check,
      World.entityAt]
  · simp [plug, PyCapsule_CheckExact, PyCapsule_GetPointer, World.signalAt]

/-- Instance of C6 in the sample world: the handle of the signal at address
20 given to `getName`. -/
theorem handle_tag_mismatch_dereferenced_witness :
    (PyCapsule_New (20 + 1) "dynamic_graph.Entity").bind
        (fun handle => PyCapsule_GetPointer handle "dynamic_graph.Entity") = some (20 + 1)
    ∧ PyCapsule_GetPointer (.capsule "dynamic_graph.Entity" 20) "dynamic_graph.Entity" = some 20
    ∧ PyCapsule_GetPointer (.capsule "dynamic_graph.Signal" 20) "dynamic_graph.Entity"
        = Option.none
    ∧ PyCapsule_GetPointer (.capsule "dynamic_graph.Entity" 20) "dynamic_graph.Signal"
        = Option.none
    ∧ (getName sampleWorld (.tuple [.capsule "dynamic_graph.Signal" 20])).result = .undefined
    ∧ (executeCommand sampleWorld
        (.tuple [.capsule "dynamic_graph.Signal" 20, .str "setGain", .tuple []])).result
        = .undefined
    ∧ (plug sampleWorld (.tuple [.capsule "dynamic_graph.Signal" 21,
        .capsule "dynamic_graph.Entity" 20])).result = .undefined :=
  handle_tag_mismatch_dereferenced sampleWorld 20 21 "setGain" [] (by decide)

/-! ## Floating-point conversions -/

theorem bitLengthAux_zero (fuel : Nat) : bitLengthAux fuel 0 = 0 := by
  cases fuel <;> simp [bitLengthAux]

theorem bitLengthAux_bounds :
    ∀ (fuel a : Nat), a ≤ fuel → a ≠ 0 →
      a < 2 ^ bitLengthAux fuel a ∧ 2 ^ bitLengthAux fuel a ≤ 2 * a := by
  intro fuel
  induction fuel with
  | zero => intro a h1 h2; omega
  | succ n ih =>
    intro a h1 h2
    simp only [bitLengthAux, h2, ↓reduceIte, Nat.pow_succ]
    by_cases h : a / 2 = 0
    · rw [h, bitLengthAux_zero]
      simp
      omega
    · obtain ⟨g1, g2⟩ := ih (a / 2) (by omega) h
      generalize 2 ^ bitLengthAux n (a / 2) = p at g1 g2
      omega

theorem bitLength_bounds (a : Nat) (h : a ≠ 0) :
    a < 2 ^ bitLength a ∧ 2 ^ bitLength a ≤ 2 * a :=
  bitLengthAux_bounds a a (Nat.le_refl a) h

theorem roundShift_exact (a k : Nat) : roundShift (a * 2 ^ k) k = a := by
  have hp : 0 < 2 ^ k := by positivity
  simp only [roundShift, Nat.mul_mod_left, Nat.mul_zero, Nat.mul_div_left a hp]
  have h1 : ¬ (2 ^ k < 0) := by omega
  have h2 : ¬ (0 = 2 ^ k) := by omega
  simp [h1, h2]

/-- Narrowing after widening gives the `float` back. -/
theorem doubleToFloat_floatToDouble (f : Float32) (hf : f.WellFormed) :
    doubleToFloat (floatToDouble f) = f := by
  cases f with
  | nan => rfl
  | num s mf =>
    simp only [Float32.WellFormed, Float32.infMag] at hf
    simp only [floatToDouble, Float32.infMag]
    by_cases h1 : 0x7F800000 ≤ mf
    · have : mf = 0x7F800000 := by omega
      subst this
      cases s <;> decide
    · rw [if_neg h1]
      by_cases h2 : 2 ^ 23 ≤ mf
      · rw [if_pos h2]
        simp only [doubleToFloat, Double.infMag, Float32.infMag]
        have h3 : ¬ (0x7FF0000000000000 ≤ mf * 2 ^ 29 + 896 * 2 ^ 52) := by omega
        have h4 : 897 ≤ (mf * 2 ^ 29 + 896 * 2 ^ 52) / 2 ^ 52 := by omega
        rw [if_neg h3, if_pos h4, Nat.add_sub_cancel, roundShift_exact]
        congr 1
        omega
      · rw [if_neg h2]
        by_cases h3 : mf = 0
        · subst h3; cases s <;> decide
        · rw [if_neg h3]
          obtain ⟨b1, b2⟩ := bitLength_bounds mf h3
          have hl1 : 1 ≤ bitLength mf := by
            rcases Nat.eq_zero_or_pos (bitLength mf) with h | h
            · rw [h] at b1; omega
            · exact h
          have hl2 : bitLength mf ≤ 23 := by
            by_contra hc
            have : 2 ^ 24 ≤ 2 ^ bitLength mf := Nat.pow_le_pow_right (by decide) (by omega)
            omega
          have hpow : 2 ^ bitLength mf * 2 ^ (53 - bitLength mf) = 2 ^ 53 := by
            rw [← Nat.pow_add]; congr 1; omega
          have hq : 0 < 2 ^ (53 - bitLength mf) := by positivity
          have hy1 : mf * 2 ^ (53 - bitLength mf) < 2 ^ 53 := by
            rw [← hpow]; exact Nat.mul_lt_mul_of_pos_right b1 hq
          have hy2 : 2 ^ 53 ≤ 2 * (mf * 2 ^ (53 - bitLength mf)) := by
            rw [← hpow, ← Nat.mul_assoc]; exact Nat.mul_le_mul_right _ b2
          simp only [doubleToFloat, Double.infMag]
          have hre := roundShift_exact mf (53 - bitLength mf)
          generalize mf * 2 ^ (53 - bitLength mf) = y at hy1 hy2 hre
          have h5 : ¬ (0x7FF0000000000000 ≤ (bitLength mf + 872) * 2 ^ 52 + y) := by omega
          have h6 : ((bitLength mf + 872) * 2 ^ 52 + y) / 2 ^ 52 = bitLength mf + 873 := by omega
          have h7 : ((bitLength mf + 872) * 2 ^ 52 + y) % 2 ^ 52 = y - 2 ^ 52 := by omega
          have h8 : ¬ (897 ≤ bitLength mf + 873) := by omega
          have h9 : ¬ (bitLength mf + 873 = 0) := by omega
          have h10 : 2 ^ 52 + (y - 2 ^ 52) = y := by omega
          have h11 : 926 - (bitLength mf + 873) = 53 - bitLength mf := by omega
          rw [if_neg h5, h6, h7, if_neg h8, if_neg h9, h10, h11, hre]

theorem natToMag_double_ne_zero (a : Nat) (h : a ≠ 0) : natToMag 53 1023 a ≠ 0 := by
  simp only [natToMag, h, ↓reduceIte]
  have hp : 0 < 2 ^ (53 - 1) := by positivity
  have hk : 0 < (1023 + bitLength a - 2) * 2 ^ (53 - 1) := Nat.mul_pos (by omega) hp
  split <;> omega

theorem addZero_longToDouble (n : Int) : (longToDouble n).addZero = longToDouble n := by
  simp only [longToDouble, Double.addZero]
  by_cases h : n.natAbs = 0
  · have hn : n = 0 := Int.natAbs_eq_zero.mp h
    subst hn
    decide
  · rw [if_neg (natToMag_double_ne_zero _ h)]

/-! ## Vectors, and the fixed 4x4 matrix -/

theorem vector_loop (x : PyObject) (items : List PyObject)
    (hx : sequenceItems x = some items) :
    ∀ (k j : Nat) (acc : Vector), j + k = items.length →
      forLoop (fun i (v : Vector) =>
          match PySequence_GetItem x i with
          | Option.none => (.undefined : Outcome ExceptionPython Vector)
          | some pyDouble =>
            if PyFloat_Check pyDouble then .ok (v ++ [PyFloat_AsDouble pyDouble])
            else if PyInt_Check pyDouble then
              .ok (v ++ [(longToDouble (wrapInt (PyInt_AS_LONG pyDouble))).addZero])
            else
              .fail ⟨.VECTOR_PARSING, "element of vector should be a floating point number."⟩)
          k j acc
        = match allSome ((items.drop j).map coefficientOf) with
          | some ds => .ok (acc ++ ds)
          | Option.none =>
            .fail ⟨.VECTOR_PARSING, "element of vector should be a floating point number."⟩ := by
  intro k
  induction k with
  | zero =>
    intro j acc hj
    have : items.drop j = [] := List.drop_eq_nil_of_le (by omega)
    simp [forLoop, this, allSome]
  | succ n ih =>
    intro j acc hj
    have hjlt : j < items.length := by omega
    have hdrop : items.drop j = items[j] :: items.drop (j + 1) := List.drop_eq_getElem_cons hjlt
    have hget : PySequence_GetItem x j = some items[j] := by
      rw [PySequence_GetItem_of_items x items hx, List.get?_eq_getElem?,
        List.getElem?_eq_getElem hjlt]
    simp only [forLoop, hget, hdrop, List.map_cons, allSome]
    cases hf : PyFloat_Check items[j] with
    | true =>
      have hco : coefficientOf items[j] = some (PyFloat_AsDouble items[j]) := by
        simp [coefficientOf, hf]
      simp only [↓reduceIte, hco, allSome]
      rw [ih (j + 1) (acc ++ [PyFloat_AsDouble items[j]]) (by omega)]
      cases allSome ((items.drop (j + 1)).map coefficientOf) <;> simp
    | false =>
      cases hi : PyInt_Check items[j] with
      | true =>
        have hco : coefficientOf items[j]
            = some (longToDouble (wrapInt (PyInt_AS_LONG items[j]))).addZero := by
          simp [coefficientOf, hf, hi]
        simp only [Bool.false_eq_true, ↓reduceIte, hco, allSome]
        rw [ih (j + 1) (acc ++ [(longToDouble (wrapInt (PyInt_AS_LONG items[j]))).addZero])
          (by omega)]
        cases allSome ((items.drop (j + 1)).map coefficientOf) <;> simp
      | false =>
        have hco : coefficientOf items[j] = Option.none := by simp [coefficientOf, hf, hi]
        simp [hco, allSome]

/-- Decoding a sequence against `VECTOR`: the coefficients of its items. -/
theorem pythonToValue_vector (x : PyObject) (items : List PyObject)
    (hx : sequenceItems x = some items) :
    pythonToValue x .VECTOR
      = match allSome (items.map coefficientOf) with
        | some ds => .ok (.vector ds)
        | Option.none =>
          .fail ⟨.VECTOR_PARSING, "element of vector should be a floating point number."⟩ := by
  have hcx : PySequence_Check x = true := PySequence_Check_of_items x _ hx
  have hsx : (PySequence_Size x).toNat = items.length := by
    rw [PySequence_Size_of_items x _ hx]; simp
  have hloop := vector_loop x items hx items.length 0 [] (by omega)
  simp only [List.drop_zero, List.nil_append] at hloop
  simp only [pythonToValue, hcx, Bool.not_true, Bool.false_eq_true, ↓reduceIte, hsx, hloop]
  cases allSome (items.map coefficientOf) <;> rfl

/-- Decoding a sequence of four rows against `MATRIX4D`. -/
theorem pythonToValue_matrix4d (x first : PyObject) (rest items0 : List PyObject)
    (hx : sequenceItems x = some (first :: rest)) (h0 : sequenceItems first = some items0)
    (hrows : rest.length = 3) :
    match allSome ((first :: rest).map (rowCoefficients 4)) with
    | some table => pythonToValue x .MATRIX4D = .ok (.matrix4d ⟨table⟩)
    | Option.none => ∃ message, pythonToValue x .MATRIX4D = .fail ⟨.MATRIX_PARSING, message⟩ := by
  have hcx : PySequence_Check x = true := PySequence_Check_of_items x _ hx
  have hc0 : PySequence_Check first = true := PySequence_Check_of_items first _ h0
  have hsx : (PySequence_Size x).toNat = rest.length + 1 := by
    rw [PySequence_Size_of_items x _ hx]; simp
  have hg0 : PySequence_GetItem x 0 = some first := by
    rw [PySequence_GetItem_of_items x _ hx]; rfl
  have hstep := fillRow_step 4 4 [] first (by simp)
  simp only [hc0, Bool.not_true, Bool.false_eq_true, ↓reduceIte, List.length_nil,
    List.nil_append] at hstep
  have hloop := fillRows_loop 4 4 x (first :: rest) hx rest.length
  simp only [pythonToValue, fillMatrixRow4d_eq, hcx, Bool.not_true, Bool.false_eq_true,
    ↓reduceIte, hsx, Nat.add_one_ne_zero, hg0, hc0, fixed4_eq_bufferOf, hstep, List.map_cons,
    Nat.add_sub_cancel]
  cases hds : rowCoefficients 4 first with
  | none => simp only [allSome, Outcome.bind]; exact ⟨_, rfl⟩
  | some ds0 =>
    have hl := hloop [ds0] (by simp; omega) (by simp; omega)
    simp only [List.length_singleton, List.drop_succ_cons, List.drop_zero, List.take_length,
      List.singleton_append] at hl
    simp only [allSome, Outcome.bind]
    cases hrest : allSome (rest.map (rowCoefficients 4)) with
    | none =>
      rw [hrest] at hl
      obtain ⟨message, hm⟩ := hl
      simp only [Option.map_none']
      exact ⟨message, by rw [hm]⟩
    | some tbl =>
      rw [hrest] at hl
      simp only [Option.map_some']
      have hshape : shaped 4 4 (ds0 :: tbl) := by
        have := shaped_of_rowCoefficients 4 (first :: rest) (ds0 :: tbl)
          (by simp [allSome, hds, hrest])
        simpa [hrows] using this
      rw [hl]
      simp only [freeze_bufferOf _ _ _ hshape]

/-! ## The round trip of the codec -/

theorem cString_idem (s : String) : cString (cString s) = cString s := by
  simp [cString, List.takeWhile_idem]

theorem floatTable_eq (rows cols : Nat) (coeff : List (List Double))
    (h : shaped rows cols coeff) :
    ((List.range rows).map fun iRow =>
        PyObject.tuple ((List.range cols).map fun iCol => .float (coeffAt coeff iRow iCol)))
      = coeff.map fun (r : List Double) => PyObject.tuple (r.map PyObject.float) := by
  obtain ⟨h1, h2⟩ := h
  subst h1
  apply List.ext_get?
  intro i
  simp only [List.get?_eq_getElem?, List.getElem?_map]
  by_cases hi : i < coeff.length
  · have hc : coeff[i].length = cols := h2 _ (List.getElem_mem hi)
    have hg : coeff.getD i [] = coeff[i] := by
      simp [List.getD_eq_getElem?_getD, List.getElem?_eq_getElem hi]
    simp only [List.getElem?_range hi, List.getElem?_eq_getElem hi, Option.map_some', coeffAt,
      hg, ← hc]
    rw [range_map_getD PyObject.float]
  · have h1 : coeff.length ≤ i := Nat.le_of_not_lt hi
    simp [List.getElem?_eq_none h1, h1]

theorem allSome_coefficientOf_floats (r : List Double) :
    allSome ((r.map PyObject.float).map coefficientOf) = some r := by
  have : (r.map PyObject.float).map coefficientOf = r.map some := by
    rw [List.map_map]
    apply List.map_congr_left
    intro d _
    simp [coefficientOf, PyFloat_Check, PyFloat_AsDouble]
  rw [this, allSome_map_some]

theorem rowCoefficients_floats (cols : Nat) (r : List Double) (h : r.length = cols) :
    rowCoefficients cols (.tuple (r.map PyObject.float)) = some r := by
  simp only [rowCoefficients, sequenceItems, List.length_map, h, ↓reduceIte,
    allSome_coefficientOf_floats]

theorem allSome_rowCoefficients_floats (cols : Nat) :
    ∀ (table : List (List Double)), (∀ r ∈ table, r.length = cols) →
      allSome ((table.map fun (r : List Double) => PyObject.tuple (r.map PyObject.float)).map
        (rowCoefficients cols)) = some table := by
  intro table
  induction table with
  | nil => intro _; rfl
  | cons r rest ih =>
    intro h
    simp only [List.map_cons, allSome,
      rowCoefficients_floats cols r (h r (List.mem_cons_self _ _)),
      ih (fun r1 hr1 => h r1 (List.mem_cons_of_mem _ hr1)), Option.map_some']

theorem wrapUnsigned_wrapUnsignedLong (u : Nat) (h : u < 4294967296) :
    wrapUnsigned ((wrapUnsignedLong (u : Int) : Nat) : Int) = u := by
  simp only [wrapUnsigned, wrapUnsignedLong]
  omega

theorem wrapInt_wrapLong (i : Int) (h1 : -2147483648 ≤ i) (h2 : i < 2147483648) :
    wrapInt (wrapLong i) = i := by
  simp only [wrapInt, wrapLong]
  omega

theorem roundTrip_matrix (m : Matrix) (h : shaped m.rows m.cols m.coeff) :
    pythonToValue (matrixToPython m) .MATRIX
      = .ok (.matrix (if m.rows = 0 then ⟨0, 0, []⟩ else m)) := by
  obtain ⟨rows, cols, coeff⟩ := m
  simp only at h ⊢
  simp only [matrixToPython, floatTable_eq rows cols coeff h]
  obtain ⟨h1, h2⟩ := h
  cases coeff with
  | nil =>
    simp only [List.length_nil] at h1
    subst h1
    simp [pythonToValue, PySequence_Check, PySequence_Size, sequenceItems]
  | cons r0 rest =>
    simp only [List.length_cons] at h1
    have hr0 : r0.length = cols := h2 r0 (List.mem_cons_self _ _)
    have hne : ¬ rows = 0 := by omega
    have key := pythonToValue_matrix
      (.tuple ((r0 :: rest).map fun (r : List Double) => PyObject.tuple (r.map PyObject.float)))
      (.tuple (r0.map PyObject.float))
      (rest.map fun (r : List Double) => PyObject.tuple (r.map PyObject.float))
      (r0.map PyObject.float) rfl rfl
    have hall := allSome_rowCoefficients_floats cols (r0 :: rest) h2
    simp only [List.map_cons, List.length_map, hr0] at key hall
    rw [hall] at key
    simp only at key
    rw [if_neg hne, ← h1]
    exact key

theorem roundTrip_matrix4d (m : Matrix4d) (h : shaped 4 4 m.coeff) :
    pythonToValue (matrix4dToPython m) .MATRIX4D = .ok (.matrix4d m) := by
  obtain ⟨coeff⟩ := m
  simp only at h ⊢
  simp only [matrix4dToPython, floatTable_eq 4 4 coeff h]
  obtain ⟨h1, h2⟩ := h
  cases coeff with
  | nil => simp at h1
  | cons r0 rest =>
    simp only [List.length_cons] at h1
    have key := pythonToValue_matrix4d
      (.tuple ((r0 :: rest).map fun (r : List Double) => PyObject.tuple (r.map PyObject.float)))
      (.tuple (r0.map PyObject.float))
      (rest.map fun (r : List Double) => PyObject.tuple (r.map PyObject.float))
      (r0.map PyObject.float) rfl rfl (by simp; omega)
    have hall := allSome_rowCoefficients_floats 4 (r0 :: rest) h2
    simp only [List.map_cons] at key hall
    rw [hall] at key
    exact key

/-- C1, as stated, fails: a matrix with no row and three columns is a
well-formed value and comes back as the matrix with no row and no column;
the string `a`, NUL, `b` comes back as `a`. -/
theorem round_trip_counterexample :
    (Value.matrix ⟨0, 3, []⟩).WellFormed
    ∧ pythonToValue (valueToPython (.matrix ⟨0, 3, []⟩)) .MATRIX = .ok (.matrix ⟨0, 0, []⟩)
    ∧ Value.matrix ⟨0, 3, []⟩ ≠ Value.matrix ⟨0, 0, []⟩
    ∧ (Value.string "a\x00b").WellFormed
    ∧ pythonToValue (valueToPython (.string "a\x00b")) .STRING = .ok (.string "a")
    ∧ Value.string "a\x00b" ≠ Value.string "a" := by
  refine ⟨?_, by decide, by decide, trivial, by decide, by decide⟩
  simp [Value.WellFormed, shaped]

/-- C1, amended.  For every well-formed tagged value `v`: when `v` is not a
string with an embedded NUL and not a matrix with no row and some columns,
`pythonToValue (valueToPython v) (kind of v)` returns `v`; a string comes back
cut at its first NUL, and a matrix with no row comes back as the matrix with
no row and no column. -/
theorem round_trip (v : Value) (hv : v.WellFormed) :
    ((∀ s, v = .string s → cString s = s) → (∀ m, v = .matrix m → m.rows = 0 → m.cols = 0) →
      pythonToValue (valueToPython v) v.type = .ok v)
    ∧ (∀ s, v = .string s → pythonToValue (valueToPython v) v.type = .ok (.string (cString s)))
    ∧ (∀ m, v = .matrix m → m.rows = 0 →
        pythonToValue (valueToPython v) v.type = .ok (.matrix ⟨0, 0, []⟩)) := by
  cases v with
  | none => exact ⟨fun _ _ => rfl, fun s h => (by cases h), fun m h => (by cases h)⟩
  | bool b => exact ⟨fun _ _ => by cases b <;> rfl, fun s h => (by cases h), fun m h => (by cases h)⟩
  | unsigned u =>
    refine ⟨fun _ _ => ?_, fun s h => (by cases h), fun m h => (by cases h)⟩
    simp only [Value.WellFormed] at hv
    simp only [valueToPython, Value.type, pythonToValue, PyInt_Check, Bool.not_true,
      Bool.false_eq_true, ↓reduceIte, PyInt_AsUnsignedLongMask,
      wrapUnsigned_wrapUnsignedLong u hv]
  | int i =>
    refine ⟨fun _ _ => ?_, fun s h => (by cases h), fun m h => (by cases h)⟩
    simp only [Value.WellFormed] at hv
    simp only [valueToPython, Value.type, pythonToValue, PyInt_Check, Bool.not_true,
      Bool.false_eq_true, ↓reduceIte, PyInt_AS_LONG, wrapInt_wrapLong i hv.1 hv.2]
  | float f =>
    refine ⟨fun _ _ => ?_, fun s h => (by cases h), fun m h => (by cases h)⟩
    simp only [Value.WellFormed] at hv
    simp only [valueToPython, Value.type, pythonToValue, PyFloat_Check, ↓reduceIte,
      PyFloat_AsDouble, doubleToFloat_floatToDouble f hv]
  | double d => exact ⟨fun _ _ => rfl, fun s h => (by cases h), fun m h => (by cases h)⟩
  | string s =>
    have key : pythonToValue (valueToPython (.string s)) (Value.string s).type
        = .ok (.string (cString s)) := by
      simp only [valueToPython, Value.type, pythonToValue, PyString_Check, Bool.not_true,
        Bool.false_eq_true, ↓reduceIte, PyString_AsString, cString_idem]
    refine ⟨fun hs _ => ?_, fun t h => ?_, fun m h => (by cases h)⟩
    · rw [key, hs s rfl]
    · cases h; exact key
  | vector w =>
    refine ⟨fun _ _ => ?_, fun s h => (by cases h), fun m h => (by cases h)⟩
    simp only [valueToPython, Value.type, vectorToPython_eq]
    rw [pythonToValue_vector (.tuple (w.map PyObject.float)) (w.map PyObject.float) rfl,
      allSome_coefficientOf_floats]
  | matrix m =>
    simp only [Value.WellFormed] at hv
    have key := roundTrip_matrix m hv.1
    refine ⟨fun _ hm => ?_, fun s h => (by cases h), fun m1 h h0 => ?_⟩
    · simp only [valueToPython, Value.type]
      rw [key]
      by_cases h0 : m.rows = 0
      · rw [if_pos h0]
        have hc := hm m rfl h0
        obtain ⟨rows, cols, coeff⟩ := m
        simp only at h0 hc hv
        subst h0 hc
        have : coeff = [] := List.length_eq_zero.mp hv.1.1
        rw [this]
      · rw [if_neg h0]
    · cases h
      simp only [valueToPython, Value.type]
      rw [key, if_pos h0]
  | matrix4d m =>
    simp only [Value.WellFormed] at hv
    refine ⟨fun _ _ => ?_, fun s h => (by cases h), fun m h => (by cases h)⟩
    exact roundTrip_matrix4d m hv.1

/-- Instance of C1: a matrix of two rows and three columns that holds 1.0,
-2.0, 0.0, NaN, infinity and the smallest negative subnormal. -/
theorem round_trip_witness :
    (Value.matrix sampleMatrix).WellFormed
    ∧ pythonToValue (valueToPython (.matrix sampleMatrix)) .MATRIX = .ok (.matrix sampleMatrix) :=
  have hv : (Value.matrix sampleMatrix).WellFormed := by
    simp [Value.WellFormed, sampleMatrix, shaped, Double.WellFormed, Double.infMag]
  ⟨hv, (round_trip (.matrix sampleMatrix) hv).1 (fun s h => (by cases h))
    (fun m h h0 => (by cases h; cases h0))⟩

/-! ## Matrix decoding -/

theorem allSome_isSome {α : Type} :
    ∀ (l : List (Option α)), (∃ as, allSome l = some as) ↔ ∀ o ∈ l, ∃ a, o = some a := by
  intro l
  induction l with
  | nil => simp [allSome]
  | cons y rest ih =>
    cases y with
    | none =>
      simp only [allSome, List.mem_cons]
      constructor
      · rintro ⟨as, h⟩; cases h
      · intro h
        obtain ⟨a, ha⟩ := h Option.none (Or.inl rfl)
        cases ha
    | some a =>
      simp only [allSome, Option.map_eq_some', List.mem_cons]
      constructor
      · rintro ⟨as, bs, hb, _⟩ o (ho | ho)
        · exact ⟨a, ho⟩
        · exact (ih.mp ⟨bs, hb⟩) o ho
      · intro h
        obtain ⟨bs, hb⟩ := ih.mpr (fun o ho => h o (Or.inr ho))
        exact ⟨a :: bs, bs, hb, rfl⟩

theorem coefficientOf_isSome (item : PyObject) :
    (∃ d, coefficientOf item = some d) ↔ acceptedElement item := by
  cases item <;> simp [coefficientOf, acceptedElement, PyFloat_Check, PyInt_Check]

theorem rowCoefficients_isSome (cols : Nat) (row : PyObject) :
    (∃ ds, rowCoefficients cols row = some ds) ↔ acceptedRow cols row := by
  unfold rowCoefficients acceptedRow
  cases hitems : sequenceItems row with
  | none => simp
  | some items =>
    by_cases hlen : items.length = cols
    · simp only [hlen, ↓reduceIte, Option.some.injEq, exists_eq_left', true_and]
      rw [allSome_isSome]
      constructor
      · intro h item hitem
        exact (coefficientOf_isSome item).mp (h _ (List.mem_map_of_mem _ hitem))
      · intro h o ho
        obtain ⟨item, hitem, rfl⟩ := List.mem_map.mp ho
        exact (coefficientOf_isSome item).mpr (h item hitem)
    · simp [hlen]

theorem coefficientOf_elementValue (item : PyObject) (d c : Double)
    (hc : coefficientOf item = some c) (hd : elementValue item = some d) : c = d := by
  cases item with
  | float x =>
    simp [coefficientOf, PyFloat_Check, PyFloat_AsDouble] at hc
    simp [elementValue] at hd
    rw [← hc, ← hd]
  | bool b =>
    simp only [coefficientOf, PyFloat_Check, PyInt_Check, PyInt_AS_LONG, Bool.false_eq_true,
      ↓reduceIte, Option.some.injEq] at hc
    simp only [elementValue, Option.some.injEq] at hd
    rw [← hc, ← hd]
    cases b <;> decide
  | int n =>
    simp only [coefficientOf, PyFloat_Check, PyInt_Check, PyInt_AS_LONG, Bool.false_eq_true,
      ↓reduceIte, Option.some.injEq] at hc
    simp only [elementValue] at hd
    split at hd
    · rename_i hr
      simp only [Option.some.injEq] at hd
      rw [← hc, ← hd, wrapInt_wrapLong n hr.1 hr.2, addZero_longToDouble]
    · cases hd
  | none => simp [elementValue] at hd
  | str s => simp [elementValue] at hd
  | tuple l => simp [elementValue] at hd
  | list l => simp [elementValue] at hd
  | capsule a b => simp [elementValue] at hd
  | object a => simp [elementValue] at hd

theorem coeffAt_of_rowCoefficients (cols : Nat) (rowObjects : List PyObject)
    (table : List (List Double))
    (h : allSome (rowObjects.map (rowCoefficients cols)) = some table)
    (i j : Nat) (row : PyObject) (items : List PyObject) (item : PyObject)
    (hrow : rowObjects.get? i = some row) (hitems : sequenceItems row = some items)
    (hitem : items.get? j = some item) :
    coefficientOf item = some (coeffAt table i j) := by
  have hi : i < rowObjects.length := by
    rcases Nat.lt_or_ge i rowObjects.length with g | g
    · exact g
    · rw [List.get?_eq_none.mpr g] at hrow; cases hrow
  have hj : j < items.length := by
    rcases Nat.lt_or_ge j items.length with g | g
    · exact g
    · rw [List.get?_eq_none.mpr g] at hitem; cases hitem
  have h1 := allSome_get _ _ h i (by simpa using hi)
  simp only [List.get?_eq_getElem?, List.getElem?_map] at h1 hrow hitem
  rw [hrow] at h1
  simp only [Option.map_some', Option.some.injEq] at h1
  have hlt := allSome_length _ _ h
  simp only [List.length_map] at hlt
  cases htab : table[i]? with
  | none =>
    have := List.getElem?_eq_none_iff.mp htab
    omega
  | some ds =>
    rw [htab] at h1
    simp only [rowCoefficients, hitems] at h1
    split at h1
    · have hld := allSome_length _ _ h1
      simp only [List.length_map] at hld
      have h2 := allSome_get _ _ h1 j (by simpa using hj)
      simp only [List.get?_eq_getElem?, List.getElem?_map, hitem, Option.map_some',
        Option.some.injEq] at h2
      cases hds : ds[j]? with
      | none =>
        have := List.getElem?_eq_none_iff.mp hds
        omega
      | some c =>
        rw [hds] at h2
        rw [h2]
        simp [coeffAt, List.getD_eq_getElem?_getD, htab, hds]
    · cases h1

/-- C8, as stated, fails: the boolean `True` is neither an integer nor a
floating-point number, and the one-row sequence that holds it decodes to the
1 x 1 matrix that holds 1.0. -/
theorem matrix_decoding_counterexample :
    pythonToValue (.tuple [.tuple [.bool true]]) .MATRIX
      = .ok (.matrix ⟨1, 1, [[.num false 0x3FF0000000000000]]⟩)
    ∧ ¬ statedNumber (.bool true) := by
  refine ⟨by decide, ?_⟩
  rintro (⟨n, h⟩ | ⟨d, h⟩) <;> cases h

/-- C8, amended.  For a sequence with at least one row decoded against
`MATRIX`, with `cols` the length of the first row: if every row is a sequence
of `cols` elements that are booleans, integers or floats, the decode returns a
matrix of (number of rows) x `cols` whose entry `(i, j)` is the value of the
`j`-th element of the `i`-th row when that element is a float, a boolean, or an
integer that fits a 32-bit `int`; otherwise (a row that is no sequence, a row of
another length, an element of another type) it throws `MATRIX_PARSING`. -/
theorem matrix_decoding (x first : PyObject) (rest : List PyObject)
    (hx : sequenceItems x = some (first :: rest)) :
    ((∀ row ∈ first :: rest, acceptedRow (PySequence_Size first).toNat row) →
      ∃ table, pythonToValue x .MATRIX
          = .ok (.matrix ⟨rest.length + 1, (PySequence_Size first).toNat, table⟩)
        ∧ shaped (rest.length + 1) (PySequence_Size first).toNat table
        ∧ ∀ i j row items item d, (first :: rest).get? i = some row →
            sequenceItems row = some items → items.get? j = some item →
            elementValue item = some d → coeffAt table i j = d)
    ∧ (¬ (∀ row ∈ first :: rest, acceptedRow (PySequence_Size first).toNat row) →
      ∃ message, pythonToValue x .MATRIX = .fail ⟨.MATRIX_PARSING, message⟩) := by
  cases h0 : sequenceItems first with
  | none =>
    constructor
    · intro h
      obtain ⟨items, hi, _⟩ := h first (List.mem_cons_self _ _)
      rw [h0] at hi; cases hi
    · intro _
      exact ⟨_, pythonToValue_matrix_first_not_sequence x first rest hx h0⟩
  | some items0 =>
    have hs0 : (PySequence_Size first).toNat = items0.length := by
      rw [PySequence_Size_of_items first _ h0]; simp
    rw [hs0]
    have key := pythonToValue_matrix x first rest items0 hx h0
    constructor
    · intro h
      have hsome : ∃ table,
          allSome ((first :: rest).map (rowCoefficients items0.length)) = some table := by
        rw [allSome_isSome]
        intro o ho
        obtain ⟨row, hrow, rfl⟩ := List.mem_map.mp ho
        exact (rowCoefficients_isSome _ row).mpr (h row hrow)
      obtain ⟨table, htable⟩ := hsome
      rw [htable] at key
      refine ⟨table, key, ?_, ?_⟩
      · have := shaped_of_rowCoefficients items0.length (first :: rest) table htable
        simpa using this
      · intro i j row items item d hrow hitems hitem hd
        have hc := coeffAt_of_rowCoefficients items0.length (first :: rest) table htable
          i j row items item hrow hitems hitem
        exact coefficientOf_elementValue item d _ hc hd
    · intro h
      cases htable : allSome ((first :: rest).map (rowCoefficients items0.length)) with
      | none => rw [htable] at key; exact key
      | some table =>
        exfalso
        apply h
        intro row hrow
        have := (allSome_isSome _).mp ⟨table, htable⟩ _ (List.mem_map_of_mem _ hrow)
        exact (rowCoefficients_isSome _ row).mp this

/-- Instance of C8: a row of three elements after a row of two. -/
theorem matrix_decoding_witness :
    ∃ message, pythonToValue (.tuple [.tuple [.int 1, .int 2], .tuple [.int 1, .int 2, .int 3]])
      .MATRIX = .fail ⟨.MATRIX_PARSING, message⟩ :=
  (matrix_decoding (.tuple [.tuple [.int 1, .int 2], .tuple [.int 1, .int 2, .int 3]])
    (.tuple [.int 1, .int 2]) [.tuple [.int 1, .int 2, .int 3]] rfl).2
    (fun h => by
      obtain ⟨items, h1, h2, _⟩ := h (.tuple [.int 1, .int 2, .int 3]) (by simp)
      cases h1
      revert h2
      decide)

/-! ## Entities: creation, listings, logger -/

/-- C11 (entity create-or-reuse).  When the pool holds an entity named `n`
at a native address: if its class name is `c`, `create` returns the handle of
that address with the entity tag and does not call the factory; if its class
name differs from `c`, `create` fails with the class-mismatch error, returns
no handle and does not call the factory.  When the pool holds no entity named
`n`, the factory is called exactly once, with `c` and `n`, and the address it
returns is wrapped with the entity tag (a fault it throws is the error of the
call). -/
theorem create_or_reuse {σ : Type} (factory : Factory σ) (w : World σ)
    (className instanceName : String)
    (hclass : parseString (.str className) = some className)
    (hinstance : parseString (.str instanceName) = some instanceName) :
    (∀ address entity, w.existEntity instanceName = some (address, entity) → address ≠ 0 →
      (entity.className = className →
        create factory w (.tuple [.str className, .str instanceName])
          = ⟨.ok (.capsule "dynamic_graph.Entity" address), w, []⟩)
      ∧ (entity.className ≠ className →
        create factory w (.tuple [.str className, .str instanceName])
          = ⟨.fail (.setString .dgpyError
              ("Found an object named " ++ instanceName ++ ",\nbut this object is of type "
                ++ entity.className ++ " and not " ++ className)), w, []⟩))
    ∧ (w.existEntity instanceName = Option.none →
      (create factory w (.tuple [.str className, .str instanceName])).factoryCalls
          = [(className, instanceName)]
      ∧ (∀ address w1, factory className instanceName w = (.ok address, w1) → address ≠ 0 →
          (create factory w (.tuple [.str className, .str instanceName])).result
            = .ok (.capsule "dynamic_graph.Entity" address)
          ∧ (create factory w (.tuple [.str className, .str instanceName])).world = w1)
      ∧ (∀ exc w1, factory className instanceName w = (.error exc, w1) →
          (create factory w (.tuple [.str className, .str instanceName])).result
            = .fail (catchAllExceptions exc))) := by
  constructor
  · intro address entity hexist hne
    constructor
    · intro hc
      simp [create, hclass, hinstance, hexist, hc, returnCapsule, PyCapsule_New, hne]
    · intro hc
      simp [create, hclass, hinstance, hexist, hc]
  · intro hexist
    refine ⟨?_, ?_, ?_⟩
    · simp only [create, hclass, hinstance, hexist]
      split <;> rfl
    · intro address w1 hf hne
      simp [create, hclass, hinstance, hexist, hf, returnCapsule, PyCapsule_New, hne]
    · intro exc w1 hf
      simp [create, hclass, hinstance, hexist, hf]

/-- Instance of C11 ("entity reuse conflict"): the pool holds `filter` of
class `Filter`; asking for `filter` of class `Gain` fails, asking for `filter`
of class `Filter` gives the handle of address 10, and asking for `other` calls
the factory once. -/
theorem create_or_reuse_witness :
    create sampleFactory sampleWorld (.tuple [.str "Gain", .str "filter"])
      = ⟨.fail (.setString .dgpyError
          "Found an object named filter,\nbut this object is of type Filter and not Gain"),
          sampleWorld, []⟩
    ∧ create sampleFactory sampleWorld (.tuple [.str "Filter", .str "filter"])
      = ⟨.ok (.capsule "dynamic_graph.Entity" 10), sampleWorld, []⟩
    ∧ (create sampleFactory sampleWorld (.tuple [.str "Gain", .str "other"])).factoryCalls
      = [("Gain", "other")] :=
  ⟨((create_or_reuse sampleFactory sampleWorld "Gain" "filter" (by decide) (by decide)).1
      10 sampleEntity rfl (by decide)).2 (by decide),
    ((create_or_reuse sampleFactory sampleWorld "Filter" "filter" (by decide) (by decide)).1
      10 sampleEntity rfl (by decide)).1 rfl,
    ((create_or_reuse sampleFactory sampleWorld "Gain" "other" (by decide) (by decide)).2
      rfl).1⟩

theorem allSome_capsules (signalMap : List (String × Nat))
    (h : ∀ it ∈ signalMap, it.2 ≠ 0) :
    allSome (signalMap.map fun it => PyCapsule_New it.2 "dynamic_graph.Signal")
      = some (signalMap.map fun it => PyObject.capsule "dynamic_graph.Signal" it.2) := by
  induction signalMap with
  | nil => rfl
  | cons it rest ih =>
    have h1 : it.2 ≠ 0 := h it (List.mem_cons_self _ _)
    have ih1 := ih (fun x hx => h x (List.mem_cons_of_mem _ hx))
    simp only [PyCapsule_New] at ih1
    simp only [List.map_cons, PyCapsule_New, h1, ↓reduceIte, allSome, ih1, Option.map_some']

/-- C17 (listings match the underlying mapping).  For the handle of an
entity, `listCommands` returns the tuple whose elements are, in the order of
the command map, the names of the commands read as C strings (the names
themselves when they hold no NUL), one per entry; `listSignals` returns the
tuple whose elements are, in the order of the signal map, the addresses of the
signals (native, so not null) wrapped with the signal tag, one per entry.  Both
tuples have the length of their map, and neither call changes the world. -/
theorem listings_match_maps {σ : Type} (w : World σ) (address : Nat) (entity : Entity σ)
    (hent : w.entityAt (some address) = some entity) :
    listCommands w (.tuple [.capsule "dynamic_graph.Entity" address])
      = ⟨.ok (.tuple (entity.commandMap.map fun it => .str (cString it.1))), w, []⟩
    ∧ (entity.commandMap.map fun it => PyObject.str (cString it.1)).length
        = entity.commandMap.length
    ∧ ((∀ it ∈ entity.commandMap, cString it.1 = it.1) →
        listCommands w (.tuple [.capsule "dynamic_graph.Entity" address])
          = ⟨.ok (.tuple (entity.commandMap.map fun it => .str it.1)), w, []⟩)
    ∧ ((∀ it ∈ entity.signalMap, it.2 ≠ 0) →
        listSignals w (.tuple [.capsule "dynamic_graph.Entity" address])
          = ⟨.ok (.tuple (entity.signalMap.map fun it =>
              .capsule "dynamic_graph.Signal" it.2)), w, []⟩)
    ∧ (entity.signalMap.map fun it => PyObject.capsule "dynamic_graph.Signal" it.2).length
        = entity.signalMap.length := by
  have hcmd : listCommands w (.tuple [.capsule "dynamic_graph.Entity" address])
      = ⟨.ok (.tuple (entity.commandMap.map fun it => .str (cString it.1))), w, []⟩ := by
    have hmap : (entity.commandMap.map fun it => some (PyObject.str (cString it.1)))
        = (entity.commandMap.map fun it => PyObject.str (cString it.1)).map some := by
      rw [List.map_map]; rfl
    simp only [listCommands, PyCapsule_CheckExact, PyCapsule_GetPointer, Bool.not_true,
      Bool.false_eq_true, ↓reduceIte, hent, filledTuple, hmap, allSome_map_some]
  refine ⟨hcmd, by simp, ?_, ?_, by simp⟩
  · intro hnames
    rw [hcmd]
    have : (entity.commandMap.map fun it => PyObject.str (cString it.1))
        = entity.commandMap.map fun it => PyObject.str it.1 := by
      apply List.map_congr_left
      intro it hit
      rw [hnames it hit]
    rw [this]
  · intro hsignals
    simp only [listSignals, PyCapsule_CheckExact, PyCapsule_GetPointer, Bool.not_true,
      Bool.false_eq_true, ↓reduceIte, hent, filledTuple,
      allSome_capsules entity.signalMap hsignals]

/-- Instance of C17 in the sample world: one command and two signals. -/
theorem listings_match_maps_witness :
    listCommands sampleWorld (.tuple [.capsule "dynamic_graph.Entity" 10])
      = ⟨.ok (.tuple [.str "setGain"]), sampleWorld, []⟩
    ∧ listSignals sampleWorld (.tuple [.capsule "dynamic_graph.Entity" 10])
      = ⟨.ok (.tuple [.capsule "dynamic_graph.Signal" 20, .capsule "dynamic_graph.Signal" 21]),
          sampleWorld, []⟩ :=
  ⟨(listings_match_maps sampleWorld 10 sampleEntity rfl).2.2.1 (by decide),
    (listings_match_maps sampleWorld 10 sampleEntity rfl).2.2.2.1 (by decide)⟩

/-- C18 (logger verbosity mapping).  For the handle of an entity and a level
object whose attribute `value` is the integer `n`, `setLoggerVerbosityLevel`
calls the setter of the entity exactly once, with All for 0, InfoWarningError
for 1, WarningError for 2, Error for 3, None for 4 and None for every other
integer (negative, or greater than 4); the logger of the entity holds that
level afterwards, and the call returns `None`. -/
theorem logger_verbosity_mapping {σ : Type} (w : World σ)
    (loggers : List (Nat × LoggerVerbosity)) (address : Nat) (entity : Entity σ)
    (attributes : List (String × PyObject)) (n : Int)
    (hent : w.entityAt (some address) = some entity)
    (hvalue : attributes.lookup "value" = some (.int n)) :
    setLoggerVerbosityLevel w loggers
        (.tuple [.capsule "dynamic_graph.Entity" address, .object attributes])
      = ⟨.ok .none, setLogger loggers address (statedVerbosity n),
          [(address, statedVerbosity n)]⟩
    ∧ (setLogger loggers address (statedVerbosity n)).lookup address
        = some (statedVerbosity n)
    ∧ ((n < 0 ∨ 4 < n) → statedVerbosity n = .VERBOSITY_NONE) := by
  have hlevel : ∀ m : Int,
      (if m = 0 then LoggerVerbosity.VERBOSITY_ALL
        else if m = 1 then .VERBOSITY_INFO_WARNING_ERROR
        else if m = 2 then .VERBOSITY_WARNING_ERROR
        else if m = 3 then .VERBOSITY_ERROR
        else if m = 4 then .VERBOSITY_NONE
        else .VERBOSITY_NONE) = statedVerbosity m := by
    intro m
    by_cases h0 : m = 0
    · subst h0; rfl
    by_cases h1 : m = 1
    · subst h1; rfl
    by_cases h2 : m = 2
    · subst h2; rfl
    by_cases h3 : m = 3
    · subst h3; rfl
    simp only [h0, h1, h2, h3, ↓reduceIte, ite_self]
    unfold statedVerbosity
    split <;> first | rfl | omega
  have hother : ∀ m : Int, (m < 0 ∨ 4 < m) → statedVerbosity m = .VERBOSITY_NONE := by
    intro m hm
    unfold statedVerbosity
    split <;> first | rfl | omega
  have hwrap : statedVerbosity (PyLong_AsLong (some (.int n))) = statedVerbosity n := by
    simp only [PyLong_AsLong]
    split
    · rfl
    · rename_i hr
      have h1 : n < 0 ∨ 4 < n := by omega
      rw [hother n h1]
      rfl
  refine ⟨?_, by simp [setLogger], hother n⟩
  simp only [setLoggerVerbosityLevel, PyCapsule_CheckExact, PyCapsule_GetPointer, Bool.not_true,
    Bool.false_eq_true, ↓reduceIte, hent, PyObject_GetAttrString, hvalue, hlevel, hwrap]

/-- Instance of C18: the value 7 sets the level None on the entity at
address 10, whose level was All. -/
theorem logger_verbosity_mapping_witness :
    setLoggerVerbosityLevel sampleWorld [(10, .VERBOSITY_ALL)]
        (.tuple [.capsule "dynamic_graph.Entity" 10, .object [("value", .int 7)]])
      = ⟨.ok .none, [(10, .VERBOSITY_NONE)], [(10, .VERBOSITY_NONE)]⟩ :=
  (logger_verbosity_mapping sampleWorld [(10, .VERBOSITY_ALL)] 10 sampleEntity
    [("value", .int 7)] 7 rfl rfl).1

/-- C20 at the failing input.  A sequence of five rows of four floats decoded
against `MATRIX4D` is not rejected: after the four rows of the storage are
filled, `fillMatrixRow` is called with row index 4 and assigns `m(4, 0)`, a
row index that the 4 x 4 storage does not have.  A row of three elements is
rejected, and four rows of four floats fill the sixteen entries. -/
theorem matrix4d_row_index_out_of_storage :
    pythonToValue (.tuple [sampleRow4, sampleRow4, sampleRow4, sampleRow4, sampleRow4]) .MATRIX4D
      = .undefined
    ∧ fillMatrixRow4d (bufferOf 4 4 [[.nan, .nan, .nan, .nan], [.nan, .nan, .nan, .nan],
        [.nan, .nan, .nan, .nan], [.nan, .nan, .nan, .nan]]) 4 sampleRow4 = .undefined
    ∧ (bufferOf 4 4 [[.nan, .nan, .nan, .nan], [.nan, .nan, .nan, .nan],
        [.nan, .nan, .nan, .nan], [.nan, .nan, .nan, .nan]]).set 4 0 (.num false 0) = .undefined
    ∧ pythonToValue (.tuple [sampleRow4, .tuple [.int 1, .int 2, .int 3]]) .MATRIX4D
      = .fail ⟨.MATRIX_PARSING, "lines of matrix have different sizes."⟩
    ∧ pythonToValue (.tuple [sampleRow4, sampleRow4, sampleRow4, sampleRow4]) .MATRIX4D
      = .ok (.matrix4d ⟨[[.num false 0, .num false 0, .num false 0, .num false 0],
          [.num false 0, .num false 0, .num false 0, .num false 0],
          [.num false 0, .num false 0, .num false 0, .num false 0],
          [.num false 0, .num false 0, .num false 0, .num false 0]]⟩) := by
  refine ⟨by decide, ?_, ?_, by decide, by decide⟩
  · simp [fillMatrixRow4d, sampleRow4, PySequence_Size, sequenceItems, bufferOf, forLoop,
      PySequence_GetItem, PyFloat_Check, MatrixBuffer.set]
  · simp [MatrixBuffer.set, bufferOf]

/-! ## The embedded interpreter -/

theorem dropWhile_blanks (p : Char → Bool) (blanks rest : List Char) (x : Char)
    (hb : ∀ c ∈ blanks, p c = true) (hx : p x = false) :
    (blanks ++ x :: rest).dropWhile p = x :: rest := by
  induction blanks with
  | nil => simp [List.dropWhile, hx]
  | cons b bs ih =>
    have h1 : p b = true := hb b (List.mem_cons_self _ _)
    simp only [List.cons_append, List.dropWhile, h1]
    exact ih (fun c hc => hb c (List.mem_cons_of_mem _ hc))

/-- The test of `python` on its command, as a computation: the command has no
non-blank character, or the first one is `#`. -/
theorem isIgnoredCommand_iff (command : String) :
    isIgnoredCommand command
      ↔ fromFirstNonWhite command = []
        ∨ ∃ rest, fromFirstNonWhite command = Char.ofNat 35 :: rest := by
  have hblank : ∀ c : Char, (c = Char.ofNat 32 ∨ c = Char.ofNat 9)
      ↔ (c == Char.ofNat 32 || c == Char.ofNat 9) = true := by
    intro c; simp
  have hsharp : (Char.ofNat 35 == Char.ofNat 32 || Char.ofNat 35 == Char.ofNat 9) = false := by
    decide
  unfold isIgnoredCommand fromFirstNonWhite
  constructor
  · rintro (h | ⟨blanks, rest, h1, h2⟩)
    · left
      rw [List.dropWhile_eq_nil_iff]
      intro c hc
      exact (hblank c).mp (h c hc)
    · right
      refine ⟨rest, ?_⟩
      rw [h1]
      exact dropWhile_blanks _ blanks rest _ (fun c hc => (hblank c).mp (h2 c hc)) hsharp
  · rintro (h | ⟨rest, h⟩)
    · left
      rw [List.dropWhile_eq_nil_iff] at h
      intro c hc
      exact (hblank c).mpr (h c hc)
    · right
      refine ⟨command.toList.takeWhile (fun c => c == Char.ofNat 32 || c == Char.ofNat 9), rest,
        ?_, ?_⟩
      · rw [← h, List.takeWhile_append_dropWhile]
      · intro c hc
        exact (hblank c).mpr
          (List.mem_takeWhile_imp (p := fun c => c == Char.ofNat 32 || c == Char.ofNat 9) hc)

/-- A command that is not ignored is evaluated: the thread-state is acquired,
the command is run as an expression, the error catcher is fetched when the run
raised, the output catcher is fetched, and the thread-state is released. -/
theorem python_evaluated (runtime : Runtime) (command : String) (s : Session)
    (h : ¬ isIgnoredCommand command) :
    Interpreter.python runtime command s
      = ⟨(match (runtime .Py_eval_input (cString command) s.state).1 with
          | .value str => obj_to_str str
          | .raised _ => ""),
        (fetchStdout (match (runtime .Py_eval_input (cString command) s.state).1 with
          | .raised _ => HandleErr (runtime .Py_eval_input (cString command) s.state).1
              (runtime .Py_eval_input (cString command) s.state).2
          | .value _ => ("", (runtime .Py_eval_input (cString command) s.state).2)).2).1,
        (match (runtime .Py_eval_input (cString command) s.state).1 with
          | .raised _ => HandleErr (runtime .Py_eval_input (cString command) s.state).1
              (runtime .Py_eval_input (cString command) s.state).2
          | .value _ => ("", (runtime .Py_eval_input (cString command) s.state).2)).1,
        ({ s.restoreThread with state :=
          (fetchStdout (match (runtime .Py_eval_input (cString command) s.state).1 with
            | .raised _ => HandleErr (runtime .Py_eval_input (cString command) s.state).1
                (runtime .Py_eval_input (cString command) s.state).2
            | .value _ => ("", (runtime .Py_eval_input (cString command) s.state).2)).2).2
          }).saveThread⟩ := by
  rw [isIgnoredCommand_iff] at h
  simp only [not_or, not_exists] at h
  unfold Interpreter.python
  cases hf : fromFirstNonWhite command with
  | nil => exact absurd hf h.1
  | cons c rest =>
    have hc : (c == Char.ofNat 35) = false := by
      cases hcc : (c == Char.ofNat 35) with
      | false => rfl
      | true =>
        exfalso
        have : c = Char.ofNat 35 := by simpa using hcc
        exact h.2 rest (by rw [hf, this])
    simp only [hc, Bool.false_eq_true, ↓reduceIte]
    rfl

/-- C12 (comment/empty short-circuit).  For a command that is empty, holds
only blanks, or whose first non-blank character is `#`, `python` returns the
three output strings empty and the session as it was: the thread-state is not
acquired (no event is added) and the runtime is not invoked, so namespaces and
capture buffers are unchanged, whatever the runtime is. -/
theorem python_ignores_empty_and_comment (runtime : Runtime) (command : String) (s : Session)
    (h : isIgnoredCommand command) :
    Interpreter.python runtime command s = ⟨"", "", "", s⟩ := by
  rw [isIgnoredCommand_iff] at h
  unfold Interpreter.python
  rcases h with h | ⟨rest, h⟩
  · rw [h]
  · rw [h]
    simp

/-- Instance of C12: three blanks and a comment. -/
theorem python_ignores_empty_and_comment_witness :
    Interpreter.python sampleRuntime "   # comment" Interpreter.new
      = ⟨"", "", "", Interpreter.new⟩ :=
  python_ignores_empty_and_comment sampleRuntime "   # comment" Interpreter.new
    ((isIgnoredCommand_iff "   # comment").mpr (Or.inr ⟨" comment".toList, by decide⟩))

theorem threadStateAfter_append (events more : List ThreadEvent) :
    ∀ t : ThreadState, threadStateAfter t (events ++ more)
      = (threadStateAfter t events).bind fun t1 => threadStateAfter t1 more := by
  induction events with
  | nil => intro t; cases more <;> simp [threadStateAfter]
  | cons e rest ih =>
    intro t
    cases t <;> cases e <;> simp [threadStateAfter, ih]

/-- One acquisition followed by one release, from a session that does not
hold the thread-state and whose acquisitions and releases alternate so far. -/
theorem acquire_release (s : Session) (st : RuntimeState)
    (hlog : threadStateAfter .Suspended s.threadLog = some .Suspended) :
    (({ s.restoreThread with state := st }).saveThread).threadState = .Suspended
    ∧ (({ s.restoreThread with state := st }).saveThread).threadLog
        = s.threadLog ++ [.acquire, .release]
    ∧ threadStateAfter .Suspended (({ s.restoreThread with state := st }).saveThread).threadLog
        = some .Suspended := by
  refine ⟨rfl, ?_, ?_⟩
  · simp [Session.saveThread, Session.restoreThread]
  · simp only [Session.saveThread, Session.restoreThread, List.append_assoc,
      threadStateAfter_append, hlog]
    rfl

/-- The session after `python`: the one before, or the one before with one
acquisition, a new state of the runtime, and one release. -/
theorem python_session (runtime : Runtime) (command : String) (s : Session) :
    (Interpreter.python runtime command s).session = s
    ∨ ∃ st, (Interpreter.python runtime command s).session
        = ({ s.restoreThread with state := st }).saveThread := by
  unfold Interpreter.python
  split
  · exact Or.inl rfl
  · split
    · exact Or.inl rfl
    · exact Or.inr ⟨_, rfl⟩

theorem runPythonFile_session (fopen : String → Option String) (runtime : Runtime)
    (filename : String) (s : Session) :
    (Interpreter.runPythonFile fopen runtime filename s).2 = s
    ∨ ∃ st, (Interpreter.runPythonFile fopen runtime filename s).2
        = ({ s.restoreThread with state := st }).saveThread := by
  unfold Interpreter.runPythonFile
  split
  · exact Or.inl rfl
  · exact Or.inr ⟨_, rfl⟩

/-- C15 (runPythonFile on an unopenable file).  When the path (the file name
as a C string) cannot be opened for reading, `runPythonFile` sets `err` to the
file name followed by ` cannot be open` and returns the session as it was: no
acquisition of the thread-state, no call of the runtime, namespaces and capture
buffers unchanged.  When the path opens, the script is run as a file input in
the state of the session, and `err` is empty when the run returns an object;
when the run raises, `err` is what `HandleErr` fetches. -/
theorem runPythonFile_unopenable (fopen : String → Option String) (runtime : Runtime)
    (filename : String) (s : Session) :
    (fopen (cString filename) = Option.none →
      Interpreter.runPythonFile fopen runtime filename s
        = (filename ++ " cannot be open", s))
    ∧ (∀ content, fopen (cString filename) = some content →
        (∀ str, (runtime .Py_file_input content s.state).1 = .value str →
          (Interpreter.runPythonFile fopen runtime filename s).1 = "")
        ∧ (∀ traceback, (runtime .Py_file_input content s.state).1 = .raised traceback →
          (Interpreter.runPythonFile fopen runtime filename s).1
            = obj_to_str ((runtime .Py_file_input content s.state).2.stderrData
                ++ traceback))) := by
  refine ⟨fun h => ?_, fun content h => ⟨fun str hv => ?_, fun traceback hr => ?_⟩⟩
  · simp only [Interpreter.runPythonFile, h]
  · simp only [Interpreter.runPythonFile, h, Session.restoreThread, hv]
  · simp only [Interpreter.runPythonFile, h, Session.restoreThread, hr, HandleErr, fetchStderr]

/-- Instance of C15: no file `missing.py` exists; `init.py` opens and runs
without error. -/
theorem runPythonFile_unopenable_witness :
    Interpreter.runPythonFile sampleFiles sampleRuntime "missing.py" Interpreter.new
      = ("missing.py cannot be open", Interpreter.new)
    ∧ (Interpreter.runPythonFile sampleFiles sampleRuntime "init.py" Interpreter.new).1 = "" :=
  ⟨(runPythonFile_unopenable sampleFiles sampleRuntime "missing.py" Interpreter.new).1
      (by decide),
    ((runPythonFile_unopenable sampleFiles sampleRuntime "init.py" Interpreter.new).2
      "x = 5" (by decide)).1 "None" (by decide)⟩

/-- C16 (thread-state discipline).  The session is Suspended after
construction, with one acquisition (by `Py_Initialize`) and one release.  For
every call of `python`, `runPythonFile` or `runMain` on a session that is
Suspended and whose acquisitions and releases alternate so far, the session is
Suspended on return, the call has added either nothing or one acquisition
followed by one release, and the acquisitions and releases still alternate:
`threadStateAfter` is defined on the whole log, so no acquisition happens while
the thread-state is held and no release while it is not. -/
theorem thread_state_discipline (runtime : Runtime) (fopen : String → Option String)
    (pyMain : RuntimeState → RuntimeState) (command filename : String) (s : Session)
    (hs : s.threadState = .Suspended)
    (hlog : threadStateAfter .Suspended s.threadLog = some .Suspended) :
    (Interpreter.new.threadState = .Suspended
      ∧ threadStateAfter .Suspended Interpreter.new.threadLog = some .Suspended)
    ∧ ((Interpreter.python runtime command s).session.threadState = .Suspended
      ∧ ((Interpreter.python runtime command s).session.threadLog = s.threadLog
        ∨ (Interpreter.python runtime command s).session.threadLog
            = s.threadLog ++ [.acquire, .release])
      ∧ threadStateAfter .Suspended (Interpreter.python runtime command s).session.threadLog
          = some .Suspended)
    ∧ ((Interpreter.runPythonFile fopen runtime filename s).2.threadState = .Suspended
      ∧ ((Interpreter.runPythonFile fopen runtime filename s).2.threadLog = s.threadLog
        ∨ (Interpreter.runPythonFile fopen runtime filename s).2.threadLog
            = s.threadLog ++ [.acquire, .release])
      ∧ threadStateAfter .Suspended (Interpreter.runPythonFile fopen runtime filename s).2.threadLog
          = some .Suspended)
    ∧ ((Interpreter.runMain pyMain s).threadState = .Suspended
      ∧ (Interpreter.runMain pyMain s).threadLog = s.threadLog ++ [.acquire, .release]
      ∧ threadStateAfter .Suspended (Interpreter.runMain pyMain s).threadLog
          = some .Suspended) := by
  refine ⟨⟨rfl, rfl⟩, ?_, ?_, ?_⟩
  · rcases python_session runtime command s with h | ⟨st, h⟩
    · rw [h]; exact ⟨hs, Or.inl rfl, hlog⟩
    · rw [h]
      have h3 := acquire_release s st hlog
      exact ⟨h3.1, Or.inr h3.2.1, h3.2.2⟩
  · rcases runPythonFile_session fopen runtime filename s with h | ⟨st, h⟩
    · rw [h]; exact ⟨hs, Or.inl rfl, hlog⟩
    · rw [h]
      have h3 := acquire_release s st hlog
      exact ⟨h3.1, Or.inr h3.2.1, h3.2.2⟩
  · exact acquire_release s (pyMain s.state) hlog

/-- Instance of C16: a failing snippet on the new session. -/
theorem thread_state_discipline_witness :
    (Interpreter.python sampleRuntime "1/0" Interpreter.new).session.threadState = .Suspended
    ∧ (Interpreter.python sampleRuntime "1/0" Interpreter.new).session.threadLog
        = [.acquire, .release, .acquire, .release]
    ∧ (Interpreter.runPythonFile sampleFiles sampleRuntime "missing.py"
        Interpreter.new).2.threadLog = [.acquire, .release] :=
  have h := thread_state_discipline sampleRuntime sampleFiles id "1/0" "missing.py"
    Interpreter.new rfl rfl
  ⟨h.2.1.1, by decide, by decide⟩

/-- A command whose first non-blank character is not `#` is not ignored. -/
theorem not_ignored_of_head (command : String) (c : Char) (rest : List Char)
    (h : fromFirstNonWhite command = c :: rest) (hc : c ≠ Char.ofNat 35) :
    ¬ isIgnoredCommand command := by
  rw [isIgnoredCommand_iff, h]
  rintro (h1 | ⟨rest1, h1⟩)
  · exact List.cons_ne_nil _ _ h1
  · exact hc (List.cons.inj h1).1

/-- The output catcher is fetched by every call of `python` that is not
ignored, and the error catcher by every such call whose run raised. -/
theorem python_drains (runtime : Runtime) (command : String) (s : Session)
    (h : ¬ isIgnoredCommand command) :
    (Interpreter.python runtime command s).session.state.stdoutData = ""
    ∧ (∀ traceback, (runtime .Py_eval_input (cString command) s.state).1 = .raised traceback →
        (Interpreter.python runtime command s).session.state.stderrData = "")
    ∧ (∀ str, (runtime .Py_eval_input (cString command) s.state).1 = .value str →
        (Interpreter.python runtime command s).session.state.stderrData
          = (runtime .Py_eval_input (cString command) s.state).2.stderrData
        ∧ (Interpreter.python runtime command s).err = "") := by
  rw [python_evaluated runtime command s h]
  refine ⟨rfl, fun traceback hr => ?_, fun str hv => ?_⟩
  · simp only [hr, HandleErr, fetchStderr, fetchStdout, Session.saveThread]
  · simp only [hv, fetchStdout, Session.saveThread, and_self]

/-- C13 (capture draining), failing input.  On the new session the snippet
`sys.stderr.write('warning')` succeeds; `python` fetches the error catcher only
when the run raised, so the call returns with `err` empty and the text
`warning` still in the error catcher.  The next call, `1/0`, raises: its `err`
slot holds `warning` followed by the traceback of the division.  The output
catcher is fetched on every path: after `sys.stdout.write('hello')` the text is
in the `out` slot of that call and the output catcher is empty. -/
theorem stderr_not_drained_on_success :
    (Interpreter.python sampleRuntime "sys.stderr.write('warning')" Interpreter.new).res = "None"
    ∧ (Interpreter.python sampleRuntime "sys.stderr.write('warning')" Interpreter.new).err = ""
    ∧ (Interpreter.python sampleRuntime "sys.stderr.write('warning')"
        Interpreter.new).session.state.stderrData = "warning"
    ∧ (Interpreter.python sampleRuntime "1/0"
        (Interpreter.python sampleRuntime "sys.stderr.write('warning')"
          Interpreter.new).session).err
        = "warning" ++ ("Traceback (most recent call last):\n"
          ++ "  File \"<string>\", line 1, in <module>\n"
          ++ "ZeroDivisionError: division by zero\n")
    ∧ (Interpreter.python sampleRuntime "1/0" Interpreter.new).err
        = "Traceback (most recent call last):\n"
          ++ "  File \"<string>\", line 1, in <module>\n"
          ++ "ZeroDivisionError: division by zero\n"
    ∧ (Interpreter.python sampleRuntime "sys.stdout.write('hello')" Interpreter.new).out
        = "hello"
    ∧ (Interpreter.python sampleRuntime "sys.stdout.write('hello')"
        Interpreter.new).session.state.stdoutData = "" := by
  refine ⟨?_, ?_, ?_, ?_, ?_, ?_, ?_⟩ <;> decide

/-- C14 (session persistence), counterexample.  `python` runs its command
with the start symbol `Py_eval_input`, which accepts expressions only.  On the
new session `python("x = 5")` returns an empty result and the text of a syntax
error in `err`, and binds nothing; `python("x + 1")` after it returns an empty
result and the text of a name error, not `6`. -/
theorem session_persistence_counterexample :
    (Interpreter.python sampleRuntime "x = 5" Interpreter.new).res = ""
    ∧ (Interpreter.python sampleRuntime "x = 5" Interpreter.new).err
        = "  File \"<string>\", line 1\n    x = 5\n      ^\nSyntaxError: invalid syntax\n"
    ∧ ((Interpreter.python sampleRuntime "x = 5" Interpreter.new).session.state.globals.lookup
        "x").isNone = true
    ∧ (Interpreter.python sampleRuntime "x + 1"
        (Interpreter.python sampleRuntime "x = 5" Interpreter.new).session).res = ""
    ∧ (Interpreter.python sampleRuntime "x + 1"
        (Interpreter.python sampleRuntime "x = 5" Interpreter.new).session).err
        = "Traceback (most recent call last):\n  File \"<string>\", line 1, in <module>\n"
          ++ "NameError: name 'x' is not defined\n" := by
  refine ⟨?_, ?_, ?_, ?_, ?_⟩ <;> decide

/-- C14 (session persistence), amended.  For two commands that are not
ignored, whatever the runtime: the global namespace of the session after the
first call is the one the evaluation of the first command (as an expression,
start symbol `Py_eval_input`) left, and the second call evaluates its command
in the state of that session, so in that namespace; its result is the text of
the object the evaluation returns, with `err` empty, and the empty string when
the evaluation raises. -/
theorem session_persistence (runtime : Runtime) (first second : String) (s : Session)
    (h1 : ¬ isIgnoredCommand first) (h2 : ¬ isIgnoredCommand second) :
    (Interpreter.python runtime first s).session.state.globals
      = (runtime .Py_eval_input (cString first) s.state).2.globals
    ∧ (Interpreter.python runtime second (Interpreter.python runtime first s).session).res
      = (match (runtime .Py_eval_input (cString second)
            (Interpreter.python runtime first s).session.state).1 with
          | .value str => obj_to_str str
          | .raised _ => "")
    ∧ (∀ str, (runtime .Py_eval_input (cString second)
            (Interpreter.python runtime first s).session.state).1 = .value str →
        (Interpreter.python runtime second (Interpreter.python runtime first s).session).err
          = "") := by
  refine ⟨?_, ?_, fun str hv => ?_⟩
  · rw [python_evaluated runtime first s h1]
    cases hr : (runtime .Py_eval_input (cString first) s.state).1 <;>
      simp [hr, HandleErr, fetchStderr, fetchStdout, Session.saveThread]
  · rw [python_evaluated runtime second _ h2]
  · exact ((python_drains runtime second _ h2).2.2 str hv).2

/-- Instance of C14: `globals().__setitem__('x', 5)` is an expression that
binds `x`; `x + 1` after it returns `6` with `err` empty. -/
theorem session_persistence_witness :
    (Interpreter.python sampleRuntime "x + 1"
        (Interpreter.python sampleRuntime "globals().__setitem__('x', 5)"
          Interpreter.new).session).res = "6"
    ∧ (Interpreter.python sampleRuntime "x + 1"
        (Interpreter.python sampleRuntime "globals().__setitem__('x', 5)"
          Interpreter.new).session).err = "" :=
  have h := session_persistence sampleRuntime "globals().__setitem__('x', 5)" "x + 1"
    Interpreter.new
    (not_ignored_of_head _ (Char.ofNat 103) "lobals().__setitem__('x', 5)".toList
      (by decide) (by decide))
    (not_ignored_of_head _ (Char.ofNat 120) " + 1".toList (by decide) (by decide))
  ⟨h.2.1.trans (by decide), h.2.2 "6" (by decide)⟩

theorem String_length_toList (name : String) : name.length = name.toList.length := by
  cases name; rfl

theorem decide_take_ne (l p : List Char) (hp : p.length = 2) :
    decide (l.take 2 ≠ p) = !p.isPrefixOf l := by
  by_cases h : l.take 2 = p
  · have h1 : p.isPrefixOf l = true := by
      rw [List.isPrefixOf_iff_prefix, List.prefix_iff_eq_take, hp]
      exact h.symm
    simp [h, h1]
  · have h1 : p.isPrefixOf l = false := by
      cases h2 : p.isPrefixOf l with
      | false => rfl
      | true =>
        exfalso
        rw [List.isPrefixOf_iff_prefix, List.prefix_iff_eq_take, hp] at h2
        exact h h2.symm
    simp [h, h1]

theorem decide_drop_ne (l p : List Char) (hp : p.length = 2) (hlen : 2 ≤ l.length) :
    decide ((l.drop (l.length - 2)).take 2 ≠ p) = !p.isSuffixOf l := by
  have htake : (l.drop (l.length - 2)).take 2 = l.drop (l.length - 2) := by
    apply List.take_of_length_le
    rw [List.length_drop]
    omega
  rw [htake]
  by_cases h : l.drop (l.length - 2) = p
  · have h1 : p.isSuffixOf l = true := by
      rw [List.isSuffixOf_iff_suffix, List.suffix_iff_eq_drop, hp]
      exact h.symm
    simp [h, h1]
  · have h1 : p.isSuffixOf l = false := by
      cases h2 : p.isSuffixOf l with
      | false => rfl
      | true =>
        exfalso
        rw [List.isSuffixOf_iff_suffix, List.suffix_iff_eq_drop, hp] at h2
        exact h h2.symm
    simp [h, h1]

/-- The test of the destructor never leaves defined behaviour, and it is the
negation of "starts with `__` and ends with `__`". -/
theorem isNotPrivate_eq (name : String) :
    isNotPrivate name = some (!isDunderWrapped name) := by
  have hp : "__".toList.length = 2 := by decide
  have h0 : compareNe name 0 2 "__" = some (!"__".toList.isPrefixOf name.toList) := by
    unfold compareNe
    rw [if_neg (Nat.not_lt_zero _), List.drop_zero, decide_take_ne _ _ hp]
  unfold isNotPrivate isDunderWrapped
  rw [h0]
  cases hpre : "__".toList.isPrefixOf name.toList with
  | false => rfl
  | true =>
    have hlen : 2 ≤ name.toList.length := by
      rw [List.isPrefixOf_iff_prefix] at hpre
      have := hpre.length_le
      omega
    have hsize : sizeMinusTwo name.length = name.toList.length - 2 := by
      unfold sizeMinusTwo
      rw [String_length_toList, if_neg (by omega)]
    have hnot : ¬ name.length < name.toList.length - 2 := by
      rw [String_length_toList]
      omega
    show compareNe name (sizeMinusTwo name.length) 2 "__" = _
    unfold compareNe
    rw [hsize, if_neg hnot, decide_drop_ne _ _ hp hlen]
    rfl

theorem lookup_of_mem (name : String) (v : Bound) :
    ∀ globals : Namespace, (globals.map Prod.fst).Nodup → (name, v) ∈ globals →
      globals.lookup name = some v := by
  intro globals
  induction globals with
  | nil => intro _ h; cases h
  | cons b rest ih =>
    intro hnodup hmem
    obtain ⟨k, w⟩ := b
    simp only [List.map_cons, List.nodup_cons] at hnodup
    rcases List.mem_cons.mp hmem with h | h
    · cases h
      simp [List.lookup]
    · have hk : name ≠ k := by
        intro hk
        apply hnodup.1
        rw [← hk]
        exact List.mem_map.mpr ⟨(name, v), h, rfl⟩
      have hk1 : (name == k) = false := by simpa using hk
      simp only [List.lookup, hk1]
      exact ih hnodup.2 h

/-- The loop of the destructor: among the bindings whose name is in the list,
exactly those that are double-underscore-wrapped or bound to a module stay. -/
theorem detachAll_eq (names : List String) :
    ∀ globals : Namespace, names.Nodup → (globals.map Prod.fst).Nodup →
      (∀ n ∈ names, n ∈ globals.map Prod.fst) → (∀ n ∈ names, cString n = n) →
      detachAll names globals
        = some (globals.filter fun b =>
            !names.contains b.1 || (isDunderWrapped b.1 || b.2.isModule)) := by
  induction names with
  | nil =>
    intro globals _ _ _ _
    simp [detachAll]
  | cons n rest ih =>
    intro globals hnames hnodup hbound hcstr
    have hn : n ∉ rest := (List.nodup_cons.mp hnames).1
    have hrest : rest.Nodup := (List.nodup_cons.mp hnames).2
    have hcn : cString n = n := hcstr n (List.mem_cons_self _ _)
    have hcrest : ∀ m ∈ rest, cString m = m := fun m hm => hcstr m (List.mem_cons_of_mem _ hm)
    have hbrest : ∀ m ∈ rest, m ∈ globals.map Prod.fst :=
      fun m hm => hbound m (List.mem_cons_of_mem _ hm)
    obtain ⟨b0, hb0, hb0n⟩ := List.mem_map.mp (hbound n (List.mem_cons_self _ _))
    obtain ⟨k0, v⟩ := b0
    simp only at hb0n
    subst hb0n
    have hlook : globals.lookup k0 = some v := lookup_of_mem k0 v globals hnodup hb0
    have hvalue : ∀ b ∈ globals, b.1 = k0 → b.2 = v := by
      intro b hb hbk
      obtain ⟨k, w⟩ := b
      simp only at hbk
      subst hbk
      have := lookup_of_mem k w globals hnodup hb
      rw [hlook] at this
      exact (Option.some.inj this).symm
    simp only [detachAll, detachStep, obj_to_str, hcn, isNotPrivate_eq]
    cases hw : isDunderWrapped k0 with
    | true =>
      simp only [Bool.not_true]
      rw [ih globals hrest hnodup hbrest hcrest]
      congr 1
      apply List.filter_congr
      intro b hb
      by_cases hbk : b.1 = k0
      · simp [hbk, hw]
      · simp [hbk]
    | false =>
      simp only [Bool.not_false, hlook]
      cases hm : v.isModule with
      | true =>
        simp only [Bool.not_true, Bool.false_eq_true, ↓reduceIte]
        rw [ih globals hrest hnodup hbrest hcrest]
        congr 1
        apply List.filter_congr
        intro b hb
        by_cases hbk : b.1 = k0
        · have hv := hvalue b hb hbk
          simp [hbk, hv, hm, hn]
        · simp [hbk]
      | false =>
        simp only [Bool.not_false, ↓reduceIte]
        have hnodup1 : ((globals.filter fun b => b.1 != k0).map Prod.fst).Nodup :=
          hnodup.sublist ((List.filter_sublist _).map _)
        have hbound1 : ∀ m ∈ rest, m ∈ (globals.filter fun b => b.1 != k0).map Prod.fst := by
          intro m hm
          obtain ⟨b, hb, hbm⟩ := List.mem_map.mp (hbrest m hm)
          refine List.mem_map.mpr ⟨b, List.mem_filter.mpr ⟨hb, ?_⟩, hbm⟩
          have : b.1 ≠ k0 := by
            rw [hbm]
            intro h
            exact hn (h ▸ hm)
          simpa using this
        rw [ih _ hrest hnodup1 hbound1 hcrest, List.filter_filter]
        congr 1
        apply List.filter_congr
        intro b hb
        by_cases hbk : b.1 = k0
        · have hv := hvalue b hb hbk
          simp [hbk, hv, hm, hw]
        · simp [hbk]

/-- C19 (shutdown namespace walk).  The name test of the destructor is
defined for every name, of every length (the comparison at index `size() - 2`
is reached only after the name was found to start with `__`, so to have two
characters at least), and it holds exactly when the name is not
double-underscore-wrapped.  For a main namespace with distinct names, each a C
string, the destructor returns, and the namespace it leaves holds exactly the
bindings that are double-underscore-wrapped or bound to a module, in their
order: a binding is detached if and only if its name is not wrapped and its
value is not a module. -/
theorem shutdown_namespace_walk (s : Session)
    (hnodup : (s.state.globals.map Prod.fst).Nodup)
    (hnames : ∀ b ∈ s.state.globals, cString b.1 = b.1) :
    (∀ name : String, isNotPrivate name = some (!isDunderWrapped name))
    ∧ ∃ s1, Interpreter.destroy s = some s1
      ∧ s1.state.globals
          = s.state.globals.filter (fun b => isDunderWrapped b.1 || b.2.isModule)
      ∧ (∀ b ∈ s.state.globals,
          b ∉ s1.state.globals ↔ (isDunderWrapped b.1 = false ∧ b.2.isModule = false)) := by
  refine ⟨isNotPrivate_eq, ?_⟩
  have hcstr : ∀ n ∈ s.state.globals.map Prod.fst, cString n = n := by
    intro n hn
    obtain ⟨b, hb, hbn⟩ := List.mem_map.mp hn
    rw [← hbn]
    exact hnames b hb
  have hall := detachAll_eq (s.state.globals.map Prod.fst) s.state.globals hnodup hnodup
    (fun n hn => hn) hcstr
  have hfilter : (s.state.globals.filter fun b =>
        !(s.state.globals.map Prod.fst).contains b.1 || (isDunderWrapped b.1 || b.2.isModule))
      = s.state.globals.filter (fun b => isDunderWrapped b.1 || b.2.isModule) := by
    apply List.filter_congr
    intro b hb
    have hmem : b.1 ∈ s.state.globals.map Prod.fst := List.mem_map.mpr ⟨b, hb, rfl⟩
    have hc : (s.state.globals.map Prod.fst).contains b.1 = true := by
      simpa using hmem
    rw [hc]
    rfl
  rw [hfilter] at hall
  refine ⟨⟨.Active, ⟨s.state.globals.filter (fun b => isDunderWrapped b.1 || b.2.isModule),
    s.state.stdoutData, s.state.stderrData⟩, s.threadLog ++ [.acquire]⟩, ?_, rfl, ?_⟩
  · simp only [Interpreter.destroy, Session.restoreThread, hall]
  · intro b hb
    simp only [List.mem_filter, hb, true_and, Bool.or_eq_true, not_or, Bool.not_eq_true]

/-- Instance of C19: the names `_`, the empty name and `__`, and the
destructor on the new session, which leaves the four double-underscore names
and the modules `traceback`, `sys` and `linecache`. -/
theorem shutdown_namespace_walk_witness :
    isNotPrivate "" = some true ∧ isNotPrivate "_" = some true
    ∧ isNotPrivate "__" = some false ∧ isNotPrivate "__x" = some true
    ∧ ∃ s1, Interpreter.destroy Interpreter.new = some s1
      ∧ s1.state.globals.map Prod.fst
          = ["__builtins__", "__doc__", "__name__", "__package__", "traceback", "sys",
             "linecache"] :=
  have h := shutdown_namespace_walk Interpreter.new (by decide) (by decide)
  ⟨h.1 "", h.1 "_", h.1 "__", h.1 "__x",
    h.2.elim fun s1 hs1 => ⟨s1, hs1.1, by rw [hs1.2.1]; decide⟩⟩

/-! ## Integer narrowing -/

/-- C21 (integer narrowing).  For every script integer `n` (an `int` object,
whose value is a C `long`), decoding against `UNSIGNED` succeeds and yields
`n mod 2^32`, for a negative `n` too; decoding against `INT` succeeds and
yields the 32-bit two's complement truncation of `n`, the integer of
`[-2^31, 2^31)` that is congruent to `n` modulo `2^32`.  The decoded value is
`n` exactly when `0 ≤ n < 2^32` (Unsigned), when `-2^31 ≤ n < 2^31` (Int). -/
theorem integer_narrowing_modular (n : Int)
    (hlong : -9223372036854775808 ≤ n ∧ n < 9223372036854775808) :
    pythonToValue (.int n) .UNSIGNED = .ok (.unsigned (n % 4294967296).toNat)
    ∧ ((n % 4294967296).toNat : Int) = n % 4294967296
    ∧ (((n % 4294967296).toNat : Int) = n ↔ 0 ≤ n ∧ n < 4294967296)
    ∧ pythonToValue (.int n) .INT
        = .ok (.int ((n + 2147483648) % 4294967296 - 2147483648))
    ∧ (-2147483648 ≤ (n + 2147483648) % 4294967296 - 2147483648
      ∧ (n + 2147483648) % 4294967296 - 2147483648 < 2147483648
      ∧ ((n + 2147483648) % 4294967296 - 2147483648 - n) % 4294967296 = 0)
    ∧ ((n + 2147483648) % 4294967296 - 2147483648 = n
        ↔ -2147483648 ≤ n ∧ n < 2147483648) := by
  have hstored : PyInt_AS_LONG (.int n) = n := by
    simp only [PyInt_AS_LONG, wrapLong]
    omega
  have hmask : (PyInt_AsUnsignedLongMask (.int n) : Int) = n % 18446744073709551616 := by
    simp only [PyInt_AsUnsignedLongMask, wrapUnsignedLong]
    omega
  refine ⟨?_, by omega, by omega, ?_, by omega, by omega⟩
  · have hu : wrapUnsigned (PyInt_AsUnsignedLongMask (.int n)) = (n % 4294967296).toNat := by
      simp only [wrapUnsigned, hmask]
      omega
    simp only [pythonToValue, PyInt_Check, Bool.not_true, Bool.false_eq_true, ↓reduceIte, hu]
  · simp only [pythonToValue, PyInt_Check, Bool.not_true, Bool.false_eq_true, ↓reduceIte,
      hstored, wrapInt]

/-- Instance of C21: `-1` decodes to the unsigned `2^32 - 1` and to the int
`-1`; `2^32 + 5` decodes to the unsigned 5; `2^31` decodes to the int
`-2^31`. -/
theorem integer_narrowing_modular_witness :
    pythonToValue (.int (-1)) .UNSIGNED = .ok (.unsigned 4294967295)
    ∧ pythonToValue (.int (-1)) .INT = .ok (.int (-1))
    ∧ pythonToValue (.int 4294967301) .UNSIGNED = .ok (.unsigned 5)
    ∧ pythonToValue (.int 2147483648) .INT = .ok (.int (-2147483648)) :=
  ⟨(integer_narrowing_modular (-1) (by decide)).1,
    (integer_narrowing_modular (-1) (by decide)).2.2.2.1,
    (integer_narrowing_modular 4294967301 (by decide)).1,
    (integer_narrowing_modular 2147483648 (by decide)).2.2.2.1⟩

end DgPy
